import Mathlib

/-!
Verification of the template-engine repository (lexer, parser, evaluator).

This file contains a shallow embedding of the engine's source files
(`src/value.rs`, `src/lexer.rs`, `src/parser.rs`, `src/math.rs`,
`src/node.rs`, `src/error.rs`) into Lean, followed by theorems about the
embedded definitions.

Modelling conventions, stated once here:

* Rust `f64` is idealised as the type `F64` below: an exact rational for
  every finite double, plus a `nan` element.  The claims under study use
  negation, subtraction, multiplication and the float-to-size cast on
  small decimal literals, where double arithmetic is exact, so the
  idealisation is faithful on everything the theorems touch.  Infinities,
  negative zero and rounding are not modelled (nothing below depends on
  them; division by zero is mapped to `nan` with a comment at the site).
* Rust strings are Lean `String`s; the lexer's byte cursor into `src` is
  represented by the pair `rem`/`pend` of character lists, where for a
  cursor state one has `rem = src[cursor..]` and
  `pend = src[token_start..cursor]`.  All cursor arithmetic in the source
  moves by whole characters, so this representation is exact.
* Rust `panic!` / `unimplemented!` sites are modelled as explicit fault
  values (`ParseFault.panicNextNode`, `EvalFault.panicVariable`,
  `EvalFault.panicSeparator`, `EvalFault.panicUnwrapString`), so that
  reachability of a panic is an ordinary statement about the embedding.
* Error message strings carried by `OperationError` and the lexer's
  `ParseFloatError` payload are omitted (the spec, section 1, places
  error-message wording out of scope); the error constructors themselves
  are kept.
* Functions whose Rust originals loop or recurse without a structurally
  decreasing argument take an explicit fuel parameter; every such
  function is called with fuel that demonstrably dominates the run
  (comments at the call sites), and no theorem below interprets fuel
  exhaustion as source behaviour.
-/

set_option maxHeartbeats 4000000
set_option maxRecDepth 4000

/-- Idealisation of Rust `f64`: exact rationals plus NaN (see header). -/
inductive F64 where
  | num (q : ℚ)
  | nan
deriving DecidableEq

/-- Addition on `F64` (`lhs + rhs` on `f64`; NaN propagates). -/
def F64.add : F64 → F64 → F64
  | .num a, .num b => .num (a + b)
  | _, _ => .nan

/-- Subtraction on `F64` (`lhs - rhs` on `f64`; NaN propagates). -/
def F64.sub : F64 → F64 → F64
  | .num a, .num b => .num (a - b)
  | _, _ => .nan

/-- Multiplication on `F64` (`lhs * rhs` on `f64`; NaN propagates). -/
def F64.mul : F64 → F64 → F64
  | .num a, .num b => .num (a * b)
  | _, _ => .nan

/-- Division on `F64`.  Rust `f64` division by zero yields an infinity or
NaN; infinities are not modelled (see header), so zero divisors map to
`nan` here.  No theorem below depends on division. -/
def F64.div : F64 → F64 → F64
  | .num a, .num b => if b = 0 then .nan else .num (a / b)
  | _, _ => .nan

/-- Negation on `F64` (unary `-` on `f64`). -/
def F64.neg : F64 → F64
  | .num q => .num (-q)
  | .nan => .nan

/-- Rust `f64` `PartialEq`: NaN compares unequal to everything, itself
included. -/
def F64.peq : F64 → F64 → Bool
  | .num a, .num b => a = b
  | _, _ => false

/-- Truthiness test `*number != 0.0` from `OwnedValue::is_truthy`
(NaN `!= 0.0` is true on `f64`). -/
def F64.ne_zero : F64 → Bool
  | .num q => q ≠ 0
  | .nan => true

/-- The cast `number as usize` used by string multiplication in
`value.rs`: NaN and negative values map to 0, otherwise the value is
truncated toward zero, i.e. floored (the cast is applied to non-negative
values there).  Rust additionally saturates at `usize::MAX`; a repeat
count near `2^64` cannot be realised by `str::repeat` in any case, so the
saturation bound is not modelled. -/
def F64.to_usize : F64 → Nat
  | .nan => 0
  | .num q => Int.toNat ⌊q⌋

/-- Decimal rendering of a non-integral rational whose reduced denominator
divides a power of ten: the unique finite decimal expansion, which is what
Rust's shortest-round-trip `f64` formatting prints for such values.  `k`
is the number of fraction digits. -/
def decimalString (sign : Bool) (intPart : Nat) (fracPart : Nat) (k : Nat) : String :=
  let fs := toString fracPart
  let pad := String.mk (List.replicate (k - fs.length) '0') ++ fs
  (if sign then "-" else "") ++ toString intPart ++ "." ++ pad

/-- Rendering of an `F64` as by Rust `f64::to_string`: integral values
print without a decimal point, finite-decimal values print their decimal
expansion, NaN prints `NaN`.  Rationals with a denominator not dividing a
power of ten cannot arise from the engine's decimal literals; they get a
fallback rendering that no theorem relies on. -/
def F64.render : F64 → String
  | .nan => "NaN"
  | .num q =>
    if q.den = 1 then toString q.num
    else
      match (List.range 40).find? (fun k => 10 ^ k % q.den = 0) with
      | some k =>
        let scaled := q.num.natAbs * 10 ^ k / q.den
        decimalString (q.num < 0) (scaled / 10 ^ k) (scaled % 10 ^ k) k
      | none => toString q.num ++ "/" ++ toString q.den

/-- `OwnedValue` from `value.rs`: the engine's value model. -/
inductive OwnedValue where
  | string (s : String)
  | number (n : F64)
  | boolean (b : Bool)
  | array (vs : List OwnedValue)

mutual

/-- Derived `PartialEq` on `OwnedValue` (numbers via `f64` partial
equality, arrays elementwise). -/
def ovEq : OwnedValue → OwnedValue → Bool
  | .string a, .string b => a = b
  | .number a, .number b => F64.peq a b
  | .boolean a, .boolean b => a = b
  | .array a, .array b => ovListEq a b
  | _, _ => false

/-- `Vec<OwnedValue>` `PartialEq`. -/
def ovListEq : List OwnedValue → List OwnedValue → Bool
  | [], [] => true
  | a :: as_, b :: bs => ovEq a b && ovListEq as_ bs
  | _, _ => false

end

mutual

/-- `ToString for OwnedValue` from `value.rs`. -/
def OwnedValue.render : OwnedValue → String
  | .string s => s
  | .number n => n.render
  | .boolean b => if b then "true" else "false"
  | .array vs => String.intercalate ", " (ovRenderList vs)

/-- The `vec.iter().map(to_string)` part of array rendering. -/
def ovRenderList : List OwnedValue → List String
  | [] => []
  | v :: vs => v.render :: ovRenderList vs

end

/-- `OwnedValue::is_truthy` from `value.rs`. -/
def OwnedValue.is_truthy : OwnedValue → Bool
  | .string s => !s.isEmpty
  | .number n => n.ne_zero
  | .boolean b => b
  | .array vs => !vs.isEmpty

/-- `ValueError` from `error.rs` (message strings omitted, see header). -/
inductive ValueError where
  | operationError
  | undefinedVariable (id : String)
  | iterateError (v : OwnedValue)

/-- `impl Add for &OwnedValue` from `value.rs`. -/
def ovAdd : OwnedValue → OwnedValue → Except ValueError OwnedValue
  | .number a, .number b => .ok (.number (F64.add a b))
  | .number a, .string b => .ok (.string (a.render ++ b))
  | .string a, .number b => .ok (.string (a ++ b.render))
  | .string a, .string b => .ok (.string (a ++ b))
  | .array a, .array b => .ok (.array (a ++ b))
  | _, _ => .error .operationError

/-- `impl Sub for &OwnedValue` from `value.rs`. -/
def ovSub : OwnedValue → OwnedValue → Except ValueError OwnedValue
  | .number a, .number b => .ok (.number (F64.sub a b))
  | _, _ => .error .operationError

/-- `string.repeat(count)` from Rust's standard library. -/
def strRepeat (s : String) (n : Nat) : String :=
  String.join (List.replicate n s)

/-- `impl Mul for &OwnedValue` from `value.rs`: numbers multiply, a
string times a number repeats the string `number as usize` times (either
operand order), everything else is an `OperationError`. -/
def ovMul : OwnedValue → OwnedValue → Except ValueError OwnedValue
  | .number a, .number b => .ok (.number (F64.mul a b))
  | .string a, .number b => .ok (.string (strRepeat a b.to_usize))
  | .number a, .string b => .ok (.string (strRepeat b a.to_usize))
  | _, _ => .error .operationError

/-- `impl Div for &OwnedValue` from `value.rs`. -/
def ovDiv : OwnedValue → OwnedValue → Except ValueError OwnedValue
  | .number a, .number b => .ok (.number (F64.div a b))
  | _, _ => .error .operationError

/-- `Value` from `value.rs`: an owned value or a borrowed reference.  The
borrow is modelled by the constructor tag alone; the evaluator's panics
depend on it. -/
inductive Value where
  | owned (v : OwnedValue)
  | borrowed (v : OwnedValue)

/-- `Value::inner`. -/
def Value.inner : Value → OwnedValue
  | .owned v => v
  | .borrowed v => v

/-- `Value::to_owned_value` (a clone; the model has no sharing). -/
def Value.to_owned_value : Value → OwnedValue
  | .owned v => v
  | .borrowed v => v

/-- `LexerError` from `error.rs` (the `ParseFloatError` payload is
omitted, see header). -/
inductive LexerError where
  | unexpectedCharacter (c : Char)
  | numberParseError
  | unexpectedEOF
  | unrecognizedEscape (c : Char)
deriving DecidableEq

/-- `Keyword` from `lexer.rs`. -/
inductive Keyword where
  | kIf
  | kElif
  | kElse
  | kFor
  | kIn
deriving DecidableEq

/-- `Operator` from `lexer.rs`. -/
inductive Operator where
  | multiply
  | divide
  | add
  | subtract
  | isEqualTo
  | isNotEqualTo
  | and
  | or
deriving DecidableEq

/-- `Token` from `lexer.rs`. -/
inductive Token where
  | text (s : String)
  | templateOpen
  | templateClose
  | openingParen
  | closingParen
  | openingSqBracket
  | closingSqBracket
  | comma
  | exclamation
  | keyword (k : Keyword)
  | identifier (s : String)
  | literal (v : OwnedValue)
  | operator (op : Operator)

/-- Derived `PartialEq` on `Token` (used by `Parser::expect`); literals
compare by `OwnedValue` partial equality. -/
def tokenEq : Token → Token → Bool
  | .text a, .text b => a = b
  | .templateOpen, .templateOpen => true
  | .templateClose, .templateClose => true
  | .openingParen, .openingParen => true
  | .closingParen, .closingParen => true
  | .openingSqBracket, .openingSqBracket => true
  | .closingSqBracket, .closingSqBracket => true
  | .comma, .comma => true
  | .exclamation, .exclamation => true
  | .keyword a, .keyword b => a = b
  | .identifier a, .identifier b => a = b
  | .literal a, .literal b => ovEq a b
  | .operator a, .operator b => a = b
  | _, _ => false

/-- Rust `char::is_whitespace`: the complete Unicode `White_Space` set. -/
def rustIsWhitespace (c : Char) : Bool :=
  c.toNat = 0x09 || c.toNat = 0x0A || c.toNat = 0x0B || c.toNat = 0x0C ||
  c.toNat = 0x0D || c.toNat = 0x20 || c.toNat = 0x85 || c.toNat = 0xA0 ||
  c.toNat = 0x1680 || (0x2000 ≤ c.toNat && c.toNat ≤ 0x200A) ||
  c.toNat = 0x2028 || c.toNat = 0x2029 || c.toNat = 0x202F ||
  c.toNat = 0x205F || c.toNat = 0x3000

/-- ASCII letter test, the range patterns `'a'..='z' | 'A'..='Z'`. -/
def isAsciiAlpha (c : Char) : Bool :=
  (0x41 ≤ c.toNat && c.toNat ≤ 0x5A) || (0x61 ≤ c.toNat && c.toNat ≤ 0x7A)

/-- Rust `char::is_ascii_digit`. -/
def isAsciiDigit (c : Char) : Bool :=
  0x30 ≤ c.toNat && c.toNat ≤ 0x39

/-- Rust `char::is_alphanumeric` (Unicode letter or number general
categories), modelled exactly on code points below U+0100 — ASCII
alphanumerics plus the Latin-1 letters, ordinal indicators, micro sign,
superscripts and vulgar fractions.  Code points at U+0100 and above are
conservatively excluded; every theorem below exercises this predicate
only on code points below U+0100. -/
def rustIsAlphanumeric (c : Char) : Bool :=
  isAsciiAlpha c || isAsciiDigit c ||
  c.toNat = 0xAA || c.toNat = 0xB2 || c.toNat = 0xB3 || c.toNat = 0xB5 ||
  c.toNat = 0xB9 || c.toNat = 0xBA ||
  (0xBC ≤ c.toNat && c.toNat ≤ 0xBE) ||
  (0xC0 ≤ c.toNat && c.toNat ≤ 0xFF && !(c.toNat = 0xD7) && !(c.toNat = 0xF7))

/-- The single-quote character (written by code point to keep the file's
quoting uniform). -/
def squote : Char := Char.ofNat 39

/-- The lexer state from `lexer.rs`.  `rem` is `src[cursor..]` and `pend`
is `src[token_start..cursor]` (see header); `is_inside_template` is the
mode bit. -/
structure LexState where
  rem : List Char
  pend : List Char
  is_inside_template : Bool
deriving DecidableEq

/-- `Lexer::advance_while` acting on the `rem`/`pend` representation:
consume characters while the predicate holds (the source's
get-then-backup loop is equivalent to stopping before the first failing
character).  Returns the final `(rem, pend)`. -/
def advance_while (f : Char → Bool) : List Char → List Char → List Char × List Char
  | [], pend => ([], pend)
  | c :: rest, pend =>
    if f c then advance_while f rest (pend ++ [c]) else (c :: rest, pend)

/-- Digit-string to number accumulator used by number parsing. -/
def digitsToNat (cs : List Char) : Nat :=
  cs.foldl (fun acc c => 10 * acc + (c.toNat - 0x30)) 0

/-- Rust `f64::from_str` restricted to the strings `Lexer::yield_number`
can pass it, which match `[0-9.]+`: such a string parses exactly when it
has at most one dot and at least one digit, and then denotes the integer
part plus the fraction.  (The parser's other accepted forms — signs,
exponents, `inf`, `NaN` — contain characters the scan never includes.) -/
def parse_f64 (cs : List Char) : Option F64 :=
  if (cs.filter (fun c => c = '.')).length ≤ 1 && cs.any isAsciiDigit then
    let intPart := cs.takeWhile (fun c => !(c = '.'))
    let fracPart := (cs.dropWhile (fun c => !(c = '.'))).drop 1
    some (.num ((digitsToNat intPart : ℚ) + (digitsToNat fracPart : ℚ) / 10 ^ fracPart.length))
  else
    none

/-- `Lexer::yield_string` from `lexer.rs`, on the `rem`/`pend`
representation.  `chunk` is the pending slice between escapes (the
source's `token_start..cursor` range inside the literal), `acc` the
string built so far.  Returns the literal's content and the remaining
input.  The fuel dominates the run because every iteration consumes at
least one character; the fuel-exhaustion branch is unreachable at the
call site below. -/
def yield_string (q : Char) : Nat → List Char → List Char → String → Except LexerError (String × List Char)
  | 0, _, _, _ => .error .unexpectedEOF
  | fuel + 1, rem, chunk, acc =>
    match rem with
    | [] => .error .unexpectedEOF
    | c :: rest =>
      if c = '\\' then
        match rest with
        | [] => .error .unexpectedEOF
        | e :: rest2 =>
          let esc : Option String :=
            if e = 'n' then some (String.mk ['\n'])
            else if e = '\\' then some (String.mk ['\\'])
            else if e = '\n' then some ""
            else if e = q then some (String.mk [q])
            else none
          match esc with
          | none => .error (.unrecognizedEscape e)
          | some esc => yield_string q fuel rest2 [] (acc ++ String.mk chunk ++ esc)
      else if c = q then
        .ok (acc ++ String.mk chunk, rest)
      else
        yield_string q fuel rest (chunk ++ [c]) acc

/-- The keyword test at the end of `Lexer::yield_identifier`. -/
def identToToken (s : String) : Token :=
  if s = "if" then .keyword .kIf
  else if s = "elif" then .keyword .kElif
  else if s = "else" then .keyword .kElse
  else if s = "for" then .keyword .kFor
  else if s = "in" then .keyword .kIn
  else .identifier s

/-- `Lexer::yield_token` from `lexer.rs`.  The arms appear in source
order; each emitted token ends with `end_token`, i.e. an empty `pend`.
The fuel only bounds the two internal retries (the lone-`{` false alarm
and whitespace skipping); a retry is never followed by another retry —
after a lone `{` the next character is not `{` and the mode is unchanged,
and after `consume_whitespace` the next character is not whitespace — so
fuel 2 always suffices and the fuel-0 branch is unreachable from
`yield_token`. -/
def yield_token_f : Nat → LexState → Except LexerError (Option Token × LexState)
  | 0, _ => .error .unexpectedEOF
  | fuel + 1, st =>
    match st.rem with
    | [] => .ok (none, st)
    | c :: rest =>
      if c = '{' && !st.is_inside_template then
        match rest with
        | '{' :: rest2 => .ok (some .templateOpen, ⟨rest2, [], true⟩)
        | _ => yield_token_f fuel ⟨rest, st.pend ++ [c], st.is_inside_template⟩
      else if c = '}' && st.is_inside_template then
        match rest with
        | [] => .error .unexpectedEOF
        | r :: rest2 => if r = '}' then .ok (some .templateClose, ⟨rest2, [], false⟩)
                        else .error (.unexpectedCharacter r)
      else if (isAsciiAlpha c || c = '_') && st.is_inside_template then
        match advance_while (fun ch => ch = '_' || rustIsAlphanumeric ch) rest (st.pend ++ [c]) with
        | (rem', pend') => .ok (some (identToToken (String.mk pend')), ⟨rem', [], true⟩)
      else if (isAsciiDigit c || c = '.') && st.is_inside_template then
        match advance_while (fun ch => ch = '.' || isAsciiDigit ch) rest (st.pend ++ [c]) with
        | (rem', pend') =>
          match parse_f64 pend' with
          | none => .error .numberParseError
          | some n => .ok (some (.literal (.number n)), ⟨rem', [], true⟩)
      else if c = '"' || c = squote then
        match yield_string c (rest.length + 1) rest [] "" with
        | .error e => .error e
        | .ok (s, rem') => .ok (some (.literal (.string s)), ⟨rem', [], st.is_inside_template⟩)
      else if c = '(' && st.is_inside_template then .ok (some .openingParen, ⟨rest, [], true⟩)
      else if c = ')' && st.is_inside_template then .ok (some .closingParen, ⟨rest, [], true⟩)
      else if c = '[' && st.is_inside_template then .ok (some .openingSqBracket, ⟨rest, [], true⟩)
      else if c = ']' && st.is_inside_template then .ok (some .closingSqBracket, ⟨rest, [], true⟩)
      else if c = '*' && st.is_inside_template then .ok (some (.operator .multiply), ⟨rest, [], true⟩)
      else if c = '/' && st.is_inside_template then .ok (some (.operator .divide), ⟨rest, [], true⟩)
      else if c = '+' && st.is_inside_template then .ok (some (.operator .add), ⟨rest, [], true⟩)
      else if c = '-' && st.is_inside_template then .ok (some (.operator .subtract), ⟨rest, [], true⟩)
      else if c = ',' && st.is_inside_template then .ok (some .comma, ⟨rest, [], true⟩)
      else if c = '=' && st.is_inside_template then
        match rest with
        | [] => .error .unexpectedEOF
        | r :: rest2 => if r = '=' then .ok (some (.operator .isEqualTo), ⟨rest2, [], true⟩)
                        else .error (.unexpectedCharacter r)
      else if c = '!' && st.is_inside_template then
        match rest with
        | [] => .error .unexpectedEOF
        | r :: rest2 => if r = '=' then .ok (some (.operator .isNotEqualTo), ⟨rest2, [], true⟩)
                        else .ok (some .exclamation, ⟨r :: rest2, [], true⟩)
      else if c = '&' && st.is_inside_template then
        match rest with
        | [] => .error .unexpectedEOF
        | r :: rest2 => if r = '&' then .ok (some (.operator .and), ⟨rest2, [], true⟩)
                        else .error (.unexpectedCharacter r)
      else if c = '|' && st.is_inside_template then
        match rest with
        | [] => .error .unexpectedEOF
        | r :: rest2 => if r = '|' then .ok (some (.operator .or), ⟨rest2, [], true⟩)
                        else .error (.unexpectedCharacter r)
      else if rustIsWhitespace c && st.is_inside_template then
        match advance_while rustIsWhitespace rest (st.pend ++ [c]) with
        | (rem', _) => yield_token_f fuel ⟨rem', [], st.is_inside_template⟩
      else if st.is_inside_template then
        .error (.unexpectedCharacter c)
      else
        match advance_while (fun ch => !(ch = '{')) rest (st.pend ++ [c]) with
        | (rem', pend') => .ok (some (.text (String.mk pend')), ⟨rem', [], st.is_inside_template⟩)

/-- `Lexer::yield_token` with its canonical fuel (see `yield_token_f`). -/
def yield_token (st : LexState) : Except LexerError (Option Token × LexState) :=
  yield_token_f 2 st

/-- Running the lexer to the end of input, collecting the tokens.  Each
produced token consumes at least one character, so fuel exceeding the
remaining length dominates the run. -/
def lex_all_f : Nat → LexState → Except LexerError (List Token)
  | 0, _ => .error .unexpectedEOF
  | fuel + 1, st =>
    match yield_token st with
    | .error e => .error e
    | .ok (none, _) => .ok []
    | .ok (some t, st') =>
      match lex_all_f fuel st' with
      | .error e => .error e
      | .ok ts => .ok (t :: ts)

/-- The lexer's full token stream for a source string. -/
def lex_all (s : String) : Except LexerError (List Token) :=
  lex_all_f (s.length + 1) ⟨s.data, [], false⟩

/-- `Node` from `node.rs` (the constructor `var` stands for the source's
`Variable`, which is a reserved word in Lean). -/
inductive Node where
  | body (nodes : List Node)
  | value (v : OwnedValue)
  | var (id : String)
  | functionCall (id : String) (args : List Node)
  | array (items : List Node)
  | operation (lhs : Node) (op : Operator) (rhs : Node)
  | not (n : Node)
  | negate (n : Node)
  | ifThenElse (cond : Node) (thenN : Node) (elseN : Option Node)
  | forIn (id : String) (iter : Node) (bodyN : Node) (sep : Option Node)

/-- `ParseError` from `error.rs`. -/
inductive ParseError where
  | lexerError (e : LexerError)
  | unexpectedEOF
  | unexpectedToken (t : Token) (parsing : String)
  | expectedToken (t : Token)

/-- A parse outcome: an ordinary `ParseError`, the `panic!` in
`Parser::next_node`, or fuel exhaustion (never source behaviour, see
header). -/
inductive ParseFault where
  | err (e : ParseError)
  | panicNextNode
  | outOfFuel

/-- The parser state from `parser.rs`: the lexer plus the one-slot (in
practice) pushback buffer.  `Vec::push`/`Vec::pop` act on the same end,
modelled by the list head. -/
structure PState where
  lexer : LexState
  buffer : List Token

/-- Context strings passed to `Parser::expect` and
`ParseError::UnexpectedToken` (named constants to keep call sites
readable). -/
def ctxTemplate : String := "template"

def ctxTemplateIf : String := "template if"

def ctxTemplateElse : String := "template else"

def ctxEndIf : String := "end if"

def ctxElseEndIf : String := "else end if"

def ctxForIn : String := "for in"

def ctxFor : String := "for"

def ctxEndFor : String := "end for"

def ctxParentheses : String := "parentheses"

def ctxFactor : String := "factor"

def ctxFunctionCall : String := "function call"

def ctxArray : String := "array"

/-- Result of one parser action: the value-or-fault together with the
parser state as mutated so far (Rust's `&mut self` keeps its progress
even when an error is returned — `parse_if` relies on this to resume
after a caught signal). -/
abbrev PRes (α : Type) := Except ParseFault α × PState

/-- Sequencing of parser actions (the `?` operator on `&mut self`
methods). -/
def pbind {α β : Type} (m : PState → PRes α) (k : α → PState → PRes β) : PState → PRes β :=
  fun ps =>
    match m ps with
    | (.ok a, ps') => k a ps'
    | (.error e, ps') => (.error e, ps')

/-- `Parser::next_token` from `parser_helpers.rs`.  On a lexer error the
run is abandoned, so the lexer state inside the returned `PState` is not
advanced (no caller resumes after a `LexerError`). -/
def next_token : PState → PRes (Option Token) :=
  fun ps =>
    match ps.buffer with
    | [] =>
      match yield_token ps.lexer with
      | .error e => (.error (.err (.lexerError e)), ps)
      | .ok (t?, lx') => (.ok t?, ⟨lx', []⟩)
    | t :: rest => (.ok (some t), ⟨ps.lexer, rest⟩)

/-- `Parser::restore` from `parser_helpers.rs`. -/
def restore (t : Token) : PState → PRes Unit :=
  fun ps => (.ok (), ⟨ps.lexer, t :: ps.buffer⟩)

/-- `Parser::expect_next_token` from `parser_helpers.rs`. -/
def expect_next_token : PState → PRes Token :=
  pbind next_token fun t? => fun ps =>
    match t? with
    | none => (.error (.err .unexpectedEOF), ps)
    | some t => (.ok t, ps)

/-- `Parser::expect` from `parser_helpers.rs`. -/
def expect (expected : Token) (parsing : String) : PState → PRes Unit :=
  pbind expect_next_token fun t => fun ps =>
    if tokenEq expected t then (.ok (), ps)
    else (.error (.err (.unexpectedToken t parsing)), ps)

mutual

/-- `Parser::parse_all`: collect nodes until end of input; the result is
a single `Body`. -/
def parse_all : Nat → PState → PRes Node
  | 0, ps => (.error .outOfFuel, ps)
  | fuel + 1, ps => parse_all_loop fuel [] ps

/-- The `while let` loop inside `parse_all`. -/
def parse_all_loop : Nat → List Node → PState → PRes Node
  | 0, _, ps => (.error .outOfFuel, ps)
  | fuel + 1, nodes, ps =>
    match next_node fuel ps with
    | (.ok (some n), ps') => parse_all_loop fuel (nodes ++ [n]) ps'
    | (.ok none, ps') => (.ok (.body nodes), ps')
    | (.error e, ps') => (.error e, ps')

/-- `Parser::next_node` from `parser.rs`.  The catch-all arm is the
source's `panic!("Something went horribly wrong")`. -/
def next_node : Nat → PState → PRes (Option Node)
  | 0, ps => (.error .outOfFuel, ps)
  | fuel + 1, ps =>
    match next_token ps with
    | (.error e, ps') => (.error e, ps')
    | (.ok none, ps') => (.ok none, ps')
    | (.ok (some t), ps') =>
      match t with
      | .text s => (.ok (some (.value (.string s))), ps')
      | .templateOpen =>
        (match parse_template fuel ps' with
         | (.ok n, ps'') => (.ok (some n), ps'')
         | (.error e, ps'') => (.error e, ps''))
      | _ => (.error .panicNextNode, ps')

/-- `Parser::parse_template`.  Modelled from the spec, section 4.3, for
the parts absent from `src/` (the current parser file is not in the
snapshot; only an older iteration is): `Keyword(If)` enters `parse_if`,
`Keyword(For)` enters `parse_for`, the keywords `elif`/`else`/`in` and
the operator `/` raise the out-of-band `ExpectedToken` signal, anything
else is pushed back and parsed as an expression; afterwards a
`TemplateClose` is expected. -/
def parse_template : Nat → PState → PRes Node
  | 0, ps => (.error .outOfFuel, ps)
  | fuel + 1, ps =>
    match expect_next_token ps with
    | (.error e, ps') => (.error e, ps')
    | (.ok t, ps') =>
      match t with
      | .keyword .kIf =>
        (match parse_if fuel ps' with
         | (.ok n, ps2) =>
           (match expect .templateClose ctxTemplate ps2 with
            | (.ok _, ps3) => (.ok n, ps3)
            | (.error e, ps3) => (.error e, ps3))
         | (.error e, ps2) => (.error e, ps2))
      | .keyword .kFor =>
        (match parse_for fuel ps' with
         | (.ok n, ps2) =>
           (match expect .templateClose ctxTemplate ps2 with
            | (.ok _, ps3) => (.ok n, ps3)
            | (.error e, ps3) => (.error e, ps3))
         | (.error e, ps2) => (.error e, ps2))
      | .keyword k => (.error (.err (.expectedToken (.keyword k))), ps')
      | .operator .divide => (.error (.err (.expectedToken (.operator .divide))), ps')
      | tok =>
        (match restore tok ps' with
         | (_, ps2) =>
           match parse_expr fuel ps2 with
           | (.ok n, ps3) =>
             (match expect .templateClose ctxTemplate ps3 with
              | (.ok _, ps4) => (.ok n, ps4)
              | (.error e, ps4) => (.error e, ps4))
           | (.error e, ps3) => (.error e, ps3))

/-- `Parser::parse_if`: condition, `TemplateClose`, then the body loop. -/
def parse_if : Nat → PState → PRes Node
  | 0, ps => (.error .outOfFuel, ps)
  | fuel + 1, ps =>
    match parse_expr fuel ps with
    | (.error e, ps') => (.error e, ps')
    | (.ok condition, ps') =>
      match expect .templateClose ctxTemplateIf ps' with
      | (.error e, ps2) => (.error e, ps2)
      | (.ok _, ps2) => parse_if_loop fuel condition [] ps2

/-- The body loop of `parse_if`, catching the `ExpectedToken` signals for
`elif`, `else` and `/` (any other error propagates; end of input is an
`UnexpectedEOF`). -/
def parse_if_loop : Nat → Node → List Node → PState → PRes Node
  | 0, _, _, ps => (.error .outOfFuel, ps)
  | fuel + 1, condition, then_nodes, ps =>
    match next_node fuel ps with
    | (.ok (some n), ps') => parse_if_loop fuel condition (then_nodes ++ [n]) ps'
    | (.ok none, ps') => (.error (.err .unexpectedEOF), ps')
    | (.error (.err (.expectedToken (.keyword .kElif))), ps') =>
      (match parse_if fuel ps' with
       | (.ok elseN, ps2) =>
         (.ok (.ifThenElse condition (.body then_nodes) (some elseN)), ps2)
       | (.error e, ps2) => (.error e, ps2))
    | (.error (.err (.expectedToken (.keyword .kElse))), ps') =>
      (match parse_else fuel ps' with
       | (.ok elseN, ps2) =>
         (.ok (.ifThenElse condition (.body then_nodes) (some elseN)), ps2)
       | (.error e, ps2) => (.error e, ps2))
    | (.error (.err (.expectedToken (.operator .divide))), ps') =>
      (match expect (.keyword .kIf) ctxEndIf ps' with
       | (.ok _, ps2) => (.ok (.ifThenElse condition (.body then_nodes) none), ps2)
       | (.error e, ps2) => (.error e, ps2))
    | (.error e, ps') => (.error e, ps')

/-- `Parser::parse_else`: `TemplateClose`, then body nodes up to the
`ExpectedToken(Divide)` signal, then `Keyword(If)`. -/
def parse_else : Nat → PState → PRes Node
  | 0, ps => (.error .outOfFuel, ps)
  | fuel + 1, ps =>
    match expect .templateClose ctxTemplateElse ps with
    | (.error e, ps') => (.error e, ps')
    | (.ok _, ps') => parse_else_loop fuel [] ps'

/-- The body loop of `parse_else`. -/
def parse_else_loop : Nat → List Node → PState → PRes Node
  | 0, _, ps => (.error .outOfFuel, ps)
  | fuel + 1, nodes, ps =>
    match next_node fuel ps with
    | (.ok (some n), ps') => parse_else_loop fuel (nodes ++ [n]) ps'
    | (.ok none, ps') => (.error (.err .unexpectedEOF), ps')
    | (.error (.err (.expectedToken (.operator .divide))), ps') =>
      (match expect (.keyword .kIf) ctxElseEndIf ps' with
       | (.ok _, ps2) => (.ok (.body nodes), ps2)
       | (.error e, ps2) => (.error e, ps2))
    | (.error e, ps') => (.error e, ps')

/-- `Parser::parse_for`.  Modelled from the spec, section 4.3: an
`Identifier`, `Keyword(In)`, the iterable expression, an optional
separator expression (present exactly when the next token is not
`TemplateClose`), `TemplateClose`, then body nodes up to the
`ExpectedToken(Divide)` signal followed by `Keyword(For)`. -/
def parse_for : Nat → PState → PRes Node
  | 0, ps => (.error .outOfFuel, ps)
  | fuel + 1, ps =>
    match expect_next_token ps with
    | (.error e, ps') => (.error e, ps')
    | (.ok (.identifier id), ps') =>
      (match expect (.keyword .kIn) ctxForIn ps' with
       | (.error e, ps2) => (.error e, ps2)
       | (.ok _, ps2) =>
         match parse_expr fuel ps2 with
         | (.error e, ps3) => (.error e, ps3)
         | (.ok iterable, ps3) =>
           match expect_next_token ps3 with
           | (.error e, ps4) => (.error e, ps4)
           | (.ok tok, ps4) =>
             if tokenEq tok .templateClose then
               match restore tok ps4 with
               | (_, ps5) => parse_for_tail fuel id iterable none ps5
             else
               match restore tok ps4 with
               | (_, ps5) =>
                 match parse_expr fuel ps5 with
                 | (.error e, ps6) => (.error e, ps6)
                 | (.ok sep, ps6) => parse_for_tail fuel id iterable (some sep) ps6)
    | (.ok t, ps') => (.error (.err (.unexpectedToken t ctxFor)), ps')

/-- The common tail of `parse_for`: `TemplateClose` then the body loop. -/
def parse_for_tail : Nat → String → Node → Option Node → PState → PRes Node
  | 0, _, _, _, ps => (.error .outOfFuel, ps)
  | fuel + 1, id, iterable, sep, ps =>
    match expect .templateClose ctxFor ps with
    | (.error e, ps') => (.error e, ps')
    | (.ok _, ps') => parse_for_loop fuel id iterable sep [] ps'

/-- The body loop of `parse_for`. -/
def parse_for_loop : Nat → String → Node → Option Node → List Node → PState → PRes Node
  | 0, _, _, _, _, ps => (.error .outOfFuel, ps)
  | fuel + 1, id, iterable, sep, nodes, ps =>
    match next_node fuel ps with
    | (.ok (some n), ps') => parse_for_loop fuel id iterable sep (nodes ++ [n]) ps'
    | (.ok none, ps') => (.error (.err .unexpectedEOF), ps')
    | (.error (.err (.expectedToken (.operator .divide))), ps') =>
      (match expect (.keyword .kFor) ctxEndFor ps' with
       | (.ok _, ps2) => (.ok (.forIn id iterable (.body nodes) sep), ps2)
       | (.error e, ps2) => (.error e, ps2))
    | (.error e, ps') => (.error e, ps')

/-- `Parser::parse_expr` from `math.rs`. -/
def parse_expr : Nat → PState → PRes Node
  | 0, ps => (.error .outOfFuel, ps)
  | fuel + 1, ps => parse_or fuel ps

/-- `Parser::parse_or` from `math.rs`. -/
def parse_or : Nat → PState → PRes Node
  | 0, ps => (.error .outOfFuel, ps)
  | fuel + 1, ps =>
    match parse_and fuel ps with
    | (.error e, ps') => (.error e, ps')
    | (.ok lhs, ps') => parse_or_loop fuel lhs ps'

/-- The `while let` loop of `parse_or`. -/
def parse_or_loop : Nat → Node → PState → PRes Node
  | 0, _, ps => (.error .outOfFuel, ps)
  | fuel + 1, lhs, ps =>
    match next_token ps with
    | (.error e, ps') => (.error e, ps')
    | (.ok none, ps') => (.ok lhs, ps')
    | (.ok (some (.operator .or)), ps') =>
      (match parse_and fuel ps' with
       | (.error e, ps2) => (.error e, ps2)
       | (.ok rhs, ps2) => parse_or_loop fuel (.operation lhs .or rhs) ps2)
    | (.ok (some t), ps') =>
      (match restore t ps' with
       | (_, ps2) => (.ok lhs, ps2))

/-- `Parser::parse_and` from `math.rs`. -/
def parse_and : Nat → PState → PRes Node
  | 0, ps => (.error .outOfFuel, ps)
  | fuel + 1, ps =>
    match parse_comparisons fuel ps with
    | (.error e, ps') => (.error e, ps')
    | (.ok lhs, ps') => parse_and_loop fuel lhs ps'

/-- The `while let` loop of `parse_and`. -/
def parse_and_loop : Nat → Node → PState → PRes Node
  | 0, _, ps => (.error .outOfFuel, ps)
  | fuel + 1, lhs, ps =>
    match next_token ps with
    | (.error e, ps') => (.error e, ps')
    | (.ok none, ps') => (.ok lhs, ps')
    | (.ok (some (.operator .and)), ps') =>
      (match parse_comparisons fuel ps' with
       | (.error e, ps2) => (.error e, ps2)
       | (.ok rhs, ps2) => parse_and_loop fuel (.operation lhs .and rhs) ps2)
    | (.ok (some t), ps') =>
      (match restore t ps' with
       | (_, ps2) => (.ok lhs, ps2))

/-- `Parser::parse_comparisons` from `math.rs`. -/
def parse_comparisons : Nat → PState → PRes Node
  | 0, ps => (.error .outOfFuel, ps)
  | fuel + 1, ps =>
    match parse_polynomial fuel ps with
    | (.error e, ps') => (.error e, ps')
    | (.ok lhs, ps') => parse_comparisons_loop fuel lhs ps'

/-- The `while let` loop of `parse_comparisons`. -/
def parse_comparisons_loop : Nat → Node → PState → PRes Node
  | 0, _, ps => (.error .outOfFuel, ps)
  | fuel + 1, lhs, ps =>
    match next_token ps with
    | (.error e, ps') => (.error e, ps')
    | (.ok none, ps') => (.ok lhs, ps')
    | (.ok (some (.operator op)), ps') =>
      if op = .isEqualTo || op = .isNotEqualTo then
        match parse_polynomial fuel ps' with
        | (.error e, ps2) => (.error e, ps2)
        | (.ok rhs, ps2) => parse_comparisons_loop fuel (.operation lhs op rhs) ps2
      else
        match restore (.operator op) ps' with
        | (_, ps2) => (.ok lhs, ps2)
    | (.ok (some t), ps') =>
      (match restore t ps' with
       | (_, ps2) => (.ok lhs, ps2))

/-- `Parser::parse_polynomial` from `math.rs`. -/
def parse_polynomial : Nat → PState → PRes Node
  | 0, ps => (.error .outOfFuel, ps)
  | fuel + 1, ps =>
    match parse_term fuel ps with
    | (.error e, ps') => (.error e, ps')
    | (.ok lhs, ps') => parse_polynomial_loop fuel lhs ps'

/-- The `while let` loop of `parse_polynomial`. -/
def parse_polynomial_loop : Nat → Node → PState → PRes Node
  | 0, _, ps => (.error .outOfFuel, ps)
  | fuel + 1, lhs, ps =>
    match next_token ps with
    | (.error e, ps') => (.error e, ps')
    | (.ok none, ps') => (.ok lhs, ps')
    | (.ok (some (.operator op)), ps') =>
      if op = .add || op = .subtract then
        match parse_term fuel ps' with
        | (.error e, ps2) => (.error e, ps2)
        | (.ok rhs, ps2) => parse_polynomial_loop fuel (.operation lhs op rhs) ps2
      else
        match restore (.operator op) ps' with
        | (_, ps2) => (.ok lhs, ps2)
    | (.ok (some t), ps') =>
      (match restore t ps' with
       | (_, ps2) => (.ok lhs, ps2))

/-- `Parser::parse_term` from `math.rs`. -/
def parse_term : Nat → PState → PRes Node
  | 0, ps => (.error .outOfFuel, ps)
  | fuel + 1, ps =>
    match parse_factor fuel ps with
    | (.error e, ps') => (.error e, ps')
    | (.ok lhs, ps') => parse_term_loop fuel lhs ps'

/-- The `while let` loop of `parse_term`. -/
def parse_term_loop : Nat → Node → PState → PRes Node
  | 0, _, ps => (.error .outOfFuel, ps)
  | fuel + 1, lhs, ps =>
    match next_token ps with
    | (.error e, ps') => (.error e, ps')
    | (.ok none, ps') => (.ok lhs, ps')
    | (.ok (some (.operator op)), ps') =>
      if op = .multiply || op = .divide then
        match parse_factor fuel ps' with
        | (.error e, ps2) => (.error e, ps2)
        | (.ok rhs, ps2) => parse_term_loop fuel (.operation lhs op rhs) ps2
      else
        match restore (.operator op) ps' with
        | (_, ps2) => (.ok lhs, ps2)
    | (.ok (some t), ps') =>
      (match restore t ps' with
       | (_, ps2) => (.ok lhs, ps2))

/-- `Parser::parse_factor` from `math.rs`, with the unary-minus arm
(`'-' parse_factor` producing a `Negate` node) modelled from the spec's
grammar, section 4.3 — the snapshot's `math.rs` predates it while the
test suite exercises it. -/
def parse_factor : Nat → PState → PRes Node
  | 0, ps => (.error .outOfFuel, ps)
  | fuel + 1, ps =>
    match expect_next_token ps with
    | (.error e, ps') => (.error e, ps')
    | (.ok t, ps') =>
      match t with
      | .literal v => (.ok (.value v), ps')
      | .openingSqBracket => parse_array_items fuel [] ps'
      | .openingParen =>
        (match parse_expr fuel ps' with
         | (.error e, ps2) => (.error e, ps2)
         | (.ok n, ps2) =>
           match expect .closingParen ctxParentheses ps2 with
           | (.error e, ps3) => (.error e, ps3)
           | (.ok _, ps3) => (.ok n, ps3))
      | .identifier id =>
        (match expect_next_token ps' with
         | (.error e, ps2) => (.error e, ps2)
         | (.ok .openingParen, ps2) => parse_fn_args fuel id [] ps2
         | (.ok t2, ps2) =>
           match restore t2 ps2 with
           | (_, ps3) => (.ok (.var id), ps3))
      | .exclamation =>
        (match parse_factor fuel ps' with
         | (.error e, ps2) => (.error e, ps2)
         | (.ok n, ps2) => (.ok (.not n), ps2))
      | .operator .subtract =>
        (match parse_factor fuel ps' with
         | (.error e, ps2) => (.error e, ps2)
         | (.ok n, ps2) => (.ok (.negate n), ps2))
      | tok => (.error (.err (.unexpectedToken tok ctxFactor)), ps')

/-- The loop of `Parser::parse_function_call` from `math.rs`. -/
def parse_fn_args : Nat → String → List Node → PState → PRes Node
  | 0, _, _, ps => (.error .outOfFuel, ps)
  | fuel + 1, id, args, ps =>
    match expect_next_token ps with
    | (.error e, ps') => (.error e, ps')
    | (.ok .closingParen, ps') => (.ok (.functionCall id args), ps')
    | (.ok t, ps') =>
      match restore t ps' with
      | (_, ps2) =>
        match parse_expr fuel ps2 with
        | (.error e, ps3) => (.error e, ps3)
        | (.ok arg, ps3) =>
          match expect_next_token ps3 with
          | (.error e, ps4) => (.error e, ps4)
          | (.ok .closingParen, ps4) => (.ok (.functionCall id (args ++ [arg])), ps4)
          | (.ok .comma, ps4) => parse_fn_args fuel id (args ++ [arg]) ps4
          | (.ok t2, ps4) => (.error (.err (.unexpectedToken t2 ctxFunctionCall)), ps4)

/-- The loop of `Parser::parse_array` from `math.rs`. -/
def parse_array_items : Nat → List Node → PState → PRes Node
  | 0, _, ps => (.error .outOfFuel, ps)
  | fuel + 1, items, ps =>
    match expect_next_token ps with
    | (.error e, ps') => (.error e, ps')
    | (.ok .closingSqBracket, ps') => (.ok (.array items), ps')
    | (.ok t, ps') =>
      match restore t ps' with
      | (_, ps2) =>
        match parse_expr fuel ps2 with
        | (.error e, ps3) => (.error e, ps3)
        | (.ok item, ps3) =>
          match expect_next_token ps3 with
          | (.error e, ps4) => (.error e, ps4)
          | (.ok .closingSqBracket, ps4) => (.ok (.array (items ++ [item])), ps4)
          | (.ok .comma, ps4) => parse_array_items fuel (items ++ [item]) ps4
          | (.ok t2, ps4) => (.error (.err (.unexpectedToken t2 ctxArray)), ps4)

end

/-- `Parser::parse_input`: run `parse_all` on a fresh lexer.  The fuel
`8 * (length + 2)` dominates any run: between two fuel decrements the
parser either consumes a character of input or moves down the fixed
grammar chain (at most eight functions deep before a token is consumed). -/
def parse_input (input : String) : Except ParseFault Node :=
  (parse_all (8 * (input.length + 2)) ⟨⟨input.data, [], false⟩, []⟩).1

/-- An evaluation outcome: an ordinary `ValueError`, one of the
evaluator's `panic!`/`unimplemented!` sites, or fuel exhaustion (never
source behaviour, see header). -/
inductive EvalFault where
  | err (e : ValueError)
  | panicVariable
  | panicSeparator
  | panicUnwrapString
  | outOfFuel

/-- The `Variables` lookup abstraction from `variables.rs` (the trait's
single method `get`). -/
abbrev Vars := String → Option OwnedValue

/-- The function map passed to `Node::evaluate`. -/
abbrev Funcs := String → Option (List Value → OwnedValue)

/-- The `local_vars` map of `Node::_evaluate`.  `HashMap::insert`
replaces the binding for an existing key; prepending with first-match
lookup realises the same observable map. -/
abbrev Locals := List (String × Value)

/-- `HashMap::get` on the locals map. -/
def localsGet (locals : Locals) (id : String) : Option Value :=
  (locals.find? (fun p => p.1 = id)).map (fun p => p.2)

/-- `HashMap::insert` on the locals map (see `Locals`). -/
def localsInsert (locals : Locals) (id : String) (v : Value) : Locals :=
  (id, v) :: locals

/-- The stringification both `Body` evaluation and the `ForIn` loop
apply to an evaluated child: a `String` value passes through, anything
else goes through `to_string`. -/
def renderInner (v : OwnedValue) : String :=
  match v with
  | .string s => s
  | w => w.render

/-- The `Body` arm's buffer loop from `Node::_evaluate`, with the child
evaluation passed in (`ev` is the recursive call at one less fuel). -/
def eval_body_list (ev : Node → Except EvalFault Value) : List Node → String → Except EvalFault Value
  | [], buffer => .ok (.owned (.string buffer))
  | n :: ns, buffer =>
    match ev n with
    | .error e => .error e
    | .ok v => eval_body_list ev ns (buffer ++ renderInner v.inner)

/-- The argument collection of the `FunctionCall` arm. -/
def eval_args (ev : Node → Except EvalFault Value) : List Node → List Value → Except EvalFault (List Value)
  | [], acc => .ok acc
  | n :: ns, acc =>
    match ev n with
    | .error e => .error e
    | .ok v => eval_args ev ns (acc ++ [v])

/-- The element collection of the `Array` arm (`to_owned_value` on each
evaluated child). -/
def eval_array_items (ev : Node → Except EvalFault Value) : List Node → List OwnedValue → Except EvalFault (List OwnedValue)
  | [], acc => .ok acc
  | n :: ns, acc =>
    match ev n with
    | .error e => .error e
    | .ok v => eval_array_items ev ns (acc ++ [v.to_owned_value])

/-- The iteration loop of the `ForIn` arm: bind the loop variable to a
borrow of the current element in a copy of the locals map, evaluate the
body there, and append the separator after every element but the last.
`evb` is the body evaluation at one less fuel, abstracted over the
locals map.  (The source inserts into one cloned map each iteration;
re-inserting the same key each round builds the same observable map.) -/
def for_in_loop (evb : Locals → Except EvalFault Value) (id : String) (locals : Locals) (sep : String) : List OwnedValue → String → Except EvalFault Value
  | [], buffer => .ok (.owned (.string buffer))
  | item :: rest, buffer =>
    match evb (localsInsert locals id (.borrowed item)) with
    | .error e => .error e
    | .ok v =>
      for_in_loop evb id locals sep rest
        (buffer ++ renderInner v.inner ++ (if rest.isEmpty then "" else sep))

/-- `Node::_evaluate` from `node.rs`, fuel-indexed on recursion depth
(per-node-level; sibling iterations share the level's fuel, so any fuel
exceeding the tree depth dominates the run). -/
def eval_node : Nat → Node → Vars → Funcs → Locals → Except EvalFault Value
  | 0, _, _, _, _ => .error .outOfFuel
  | fuel + 1, n, vars, funcs, locals =>
    match n with
    | .body nodes => eval_body_list (fun m => eval_node fuel m vars funcs locals) nodes ""
    | .value v => .ok (.borrowed v)
    | .var id =>
      (match localsGet locals id with
       | some (.borrowed v) => .ok (.borrowed v)
       | some (.owned _) => .error .panicVariable
       | none =>
         match vars id with
         | some v => .ok (.borrowed v)
         | none => .error (.err (.undefinedVariable id)))
    | .functionCall id args =>
      (match funcs id with
       | none => .error (.err (.undefinedVariable id))
       | some fn =>
         match eval_args (fun m => eval_node fuel m vars funcs locals) args [] with
         | .error e => .error e
         | .ok vs => .ok (.owned (fn vs)))
    | .array nodes =>
      (match eval_array_items (fun m => eval_node fuel m vars funcs locals) nodes [] with
       | .error e => .error e
       | .ok vs => .ok (.owned (.array vs)))
    | .operation lhs op rhs =>
      (match eval_node fuel lhs vars funcs locals with
       | .error e => .error e
       | .ok l =>
         match eval_node fuel rhs vars funcs locals with
         | .error e => .error e
         | .ok r =>
           match op with
           | .multiply =>
             (match ovMul l.inner r.inner with
              | .ok v => .ok (.owned v)
              | .error e => .error (.err e))
           | .divide =>
             (match ovDiv l.inner r.inner with
              | .ok v => .ok (.owned v)
              | .error e => .error (.err e))
           | .add =>
             (match ovAdd l.inner r.inner with
              | .ok v => .ok (.owned v)
              | .error e => .error (.err e))
           | .subtract =>
             (match ovSub l.inner r.inner with
              | .ok v => .ok (.owned v)
              | .error e => .error (.err e))
           | .isEqualTo => .ok (.owned (.boolean (ovEq l.inner r.inner)))
           | .isNotEqualTo => .ok (.owned (.boolean (!ovEq l.inner r.inner)))
           | .and => .ok (.owned (.boolean (l.inner.is_truthy && r.inner.is_truthy)))
           | .or => .ok (.owned (.boolean (l.inner.is_truthy || r.inner.is_truthy))))
    | .not m =>
      (match eval_node fuel m vars funcs locals with
       | .error e => .error e
       | .ok v => .ok (.owned (.boolean (!v.inner.is_truthy))))
    | .negate m =>
      (match eval_node fuel m vars funcs locals with
       | .error e => .error e
       | .ok v =>
         match v.inner with
         | .number fn => .ok (.owned (.number (F64.neg fn)))
         | _ => .error (.err .operationError))
    | .ifThenElse c t e? =>
      (match eval_node fuel c vars funcs locals with
       | .error e => .error e
       | .ok cv =>
         if cv.inner.is_truthy then eval_node fuel t vars funcs locals
         else
           match e? with
           | some els => eval_node fuel els vars funcs locals
           | none => .ok (.owned (.string "")))
    | .forIn id arrN bodyN sep? =>
      (match eval_node fuel arrN vars funcs locals with
       | .error e => .error e
       | .ok av =>
         match av.inner with
         | .array items =>
           -- Separator: absent gives the empty string; a present one is
           -- evaluated once and must be a `Borrowed` `String` — a
           -- borrowed non-string is the source's
           -- `OperationError("Invalid separator.")`, and an owned value
           -- of any kind hits the source's `panic!()`.
           (match sep? with
            | none =>
              for_in_loop (fun l => eval_node fuel bodyN vars funcs l) id locals "" items ""
            | some sepN =>
              match eval_node fuel sepN vars funcs locals with
              | .error e => .error e
              | .ok (.borrowed (.string s)) =>
                for_in_loop (fun l => eval_node fuel bodyN vars funcs l) id locals s items ""
              | .ok (.borrowed _) => .error (.err .operationError)
              | .ok (.owned _) => .error .panicSeparator)
         | v => .error (.err (.iterateError v)))

/-- `Node::evaluate` from `node.rs` at a given fuel: run `_evaluate`
with an empty locals map and extract the string.  The non-owned-string
arms of `Value::unwrap_string` are `unimplemented!()` in the source. -/
def evaluate_f (fuel : Nat) (n : Node) (vars : Vars) (funcs : Funcs) : Except EvalFault String :=
  match eval_node fuel n vars funcs [] with
  | .error e => .error e
  | .ok (.owned (.string s)) => .ok s
  | .ok _ => .error .panicUnwrapString

/-- A render error: a parse fault or an evaluation fault. -/
inductive TemplateError where
  | parseE (e : ParseFault)
  | evalE (e : EvalFault)

/-- The end-to-end pipeline (the facade wiring `parse_input` and
`Node::evaluate`): parse, then evaluate.  The evaluation fuel
`2 * length + 8` dominates the AST depth of anything `parse_input` can
build from the input. -/
def render_template (src : String) (vars : Vars) (funcs : Funcs) : Except TemplateError String :=
  match parse_input src with
  | .error e => .error (.parseE e)
  | .ok n =>
    match evaluate_f (2 * src.length + 8) n vars funcs with
    | .error e => .error (.evalE e)
    | .ok s => .ok s

/-! ## Shared constants and helper lemmas for the theorems -/

/-- An empty variable map. -/
def emptyVars : Vars := fun _ => none

/-- An empty function map. -/
def emptyFuncs : Funcs := fun _ => none

/-- The variable map of the repository's integration tests
(`_a = 4.0`, `a = 8.2`, `b = 16.0`, `world = "world"`). -/
def testVars : Vars := fun id =>
  if id = "_a" then some (.number (.num 4))
  else if id = "a" then some (.number (.num (41 / 5)))
  else if id = "b" then some (.number (.num 16))
  else if id = "world" then some (.string "world")
  else none

/-- Joining rendered elements with a separator, no separator after the
last element. -/
def joinSep (s : String) : List String → String
  | [] => ""
  | [a] => a
  | a :: b :: rest => a ++ s ++ joinSep s (b :: rest)

/-- The source `"hi"` (a double-quoted string literal outside any
template). -/
def srcQuotedHi : String := "\"hi\""

/-- The template whose for-loop separator is the computed string
expression `"a"+"b"`. -/
def srcOwnedSep : String := "\x7b\x7bfor x in [1] \"a\"+\"b\"\x7d\x7d\x7b\x7bx\x7d\x7d\x7b\x7b/for\x7d\x7d"

/-- The template `{{ 2--2 }}`. -/
def srcTwoMinusMinusTwo : String := "\x7b\x7b 2--2 \x7d\x7d"

/-- The template `{{for x in [1,2] " "}}{{x}}{{/for}}`. -/
def srcForSpace : String := "\x7b\x7bfor x in [1,2] \" \"\x7d\x7d\x7b\x7bx\x7d\x7d\x7b\x7b/for\x7d\x7d"

/-- The source consisting of a single `{`. -/
def srcLoneBrace : String := "\x7b"

/-- The source `{a}`. -/
def srcBraceA : String := "\x7ba\x7d"

/-- The source `{{else}}`: a block terminator outside any block. -/
def srcStrayElse : String := "\x7b\x7belse\x7d\x7d"

/-- The template `{{if a==b}}a==b{{elif a!=b}}a!=b{{/if}}` from the
test suite. -/
def srcIfElif : String :=
  "\x7b\x7bif a==b\x7d\x7da==b\x7b\x7belif a!=b\x7d\x7da!=b\x7b\x7b/if\x7d\x7d"

/-- The template `{{for x in [1]}}y{{/for}}` (a for-loop without a
separator). -/
def srcForPlain : String := "\x7b\x7bfor x in [1]\x7d\x7dy\x7b\x7b/for\x7d\x7d"

/-- The source `{{né}}` — an identifier containing the non-ASCII letter
`é` (U+00E9). -/
def srcNonAsciiIdent : String := "\x7b\x7bné\x7d\x7d"

/-! ## C1 -/

/-- C1: the claim states that `Parser::parse_input` and `Node::evaluate`
report all failures through the result type and never panic.  This is
false: quoted string literals are lexed in both modes, so the source
`"hi"` produces a `Literal` token outside any template, which reaches the
`panic!` arm of `Parser::next_node`.  This theorem evaluates the
embedded parser at that failing input. -/
theorem c1_parse_input_panics_on_toplevel_string_literal :
    parse_input srcQuotedHi = .error .panicNextNode := rfl

/-! ## C4 -/

/-- C4: the claim states that a `ForIn` separator evaluating to a
`String` is used and any non-`String` separator yields an
`OperationError` value.  This is false: the separator match in
`Node::_evaluate` accepts only `Value::Borrowed` results, and a computed
separator such as `"a"+"b"` evaluates to `Value::Owned(String)`, hitting
the `panic!()` arm even though its value is a string.  This theorem
evaluates the embedded pipeline at that failing input. -/
theorem c4_owned_string_separator_panics :
    render_template srcOwnedSep emptyVars emptyFuncs = .error (.evalE .panicSeparator) := rfl

/-! ## C2 -/

/-- Prefixing a `-` token to any state from which `parse_factor` parses
`x` parses `Negate x` instead (the unary-minus arm of `parse_factor`). -/
theorem parse_factor_negate_step (fuel : Nat) (ps : PState) (x : Node) (ps' : PState)
    (h : parse_factor fuel ps = (.ok x, ps')) :
    parse_factor (fuel + 1) ⟨ps.lexer, .operator .subtract :: ps.buffer⟩ =
      (.ok (.negate x), ps') := by
  simp only [parse_factor, expect_next_token, pbind, next_token]
  rw [h]

/-- C2: unary minus is a prefix operator on factors.  Whenever
`parse_factor` parses `x` from some parser state, prefixing a `-` token
parses `Negate x` from the same final state (so two `-` tokens give
`Negate (Negate x)`); the evaluation of `Negate n` is the arithmetic
negation of `n`'s value when that value is a `Number` and an
`OperationError` otherwise; and the template `{{ 2--2 }}` renders to
`4`. -/
theorem c2_unary_minus_prefix_on_factors :
    (∀ fuel ps x ps', parse_factor fuel ps = (.ok x, ps') →
      parse_factor (fuel + 1) ⟨ps.lexer, .operator .subtract :: ps.buffer⟩ =
        (.ok (.negate x), ps')) ∧
    (∀ fuel ps x ps', parse_factor fuel ps = (.ok x, ps') →
      parse_factor (fuel + 2) ⟨ps.lexer, .operator .subtract :: .operator .subtract :: ps.buffer⟩ =
        (.ok (.negate (.negate x)), ps')) ∧
    (∀ fuel n vars funcs locals v, eval_node fuel n vars funcs locals = .ok v →
      eval_node (fuel + 1) (.negate n) vars funcs locals =
        (match v.inner with
         | .number fn => .ok (.owned (.number (F64.neg fn)))
         | _ => .error (.err .operationError))) ∧
    render_template srcTwoMinusMinusTwo emptyVars emptyFuncs = .ok "4" := by
  refine ⟨parse_factor_negate_step, ?_, ?_, by with_unfolding_all rfl⟩
  · intro fuel ps x ps' h
    exact parse_factor_negate_step (fuel + 1) ⟨ps.lexer, .operator .subtract :: ps.buffer⟩
      (.negate x) ps' (parse_factor_negate_step fuel ps x ps' h)
  · intro fuel n vars funcs locals v h
    simp only [eval_node]
    rw [h]

/-- Witness for `c2_unary_minus_prefix_on_factors` at a concrete input:
a buffered literal `2` parses as a factor, with a `-` token in front it
parses as its negation, and evaluating that negation yields `-2`. -/
theorem c2_unary_minus_prefix_on_factors_witness :
    parse_factor 1 ⟨⟨[], [], true⟩, [.literal (.number (.num 2))]⟩ =
      (.ok (.value (.number (.num 2))), ⟨⟨[], [], true⟩, []⟩) ∧
    parse_factor 2 ⟨⟨[], [], true⟩, [.operator .subtract, .literal (.number (.num 2))]⟩ =
      (.ok (.negate (.value (.number (.num 2)))), ⟨⟨[], [], true⟩, []⟩) ∧
    eval_node 2 (.negate (.value (.number (.num 2)))) emptyVars emptyFuncs [] =
      .ok (.owned (.number (.num (-2)))) :=
  ⟨rfl,
   c2_unary_minus_prefix_on_factors.1 1 ⟨⟨[], [], true⟩, [.literal (.number (.num 2))]⟩
     (.value (.number (.num 2))) ⟨⟨[], [], true⟩, []⟩ rfl,
   c2_unary_minus_prefix_on_factors.2.2.1 1 (.value (.number (.num 2))) emptyVars emptyFuncs []
     (.borrowed (.number (.num 2))) rfl⟩

/-! ## C5 -/

/-- A value is a `Boolean` or an `Array`. -/
def isBoolOrArray (v : OwnedValue) : Prop :=
  (∃ b, v = .boolean b) ∨ (∃ vs, v = .array vs)

/-- C5: multiplying a string by a finite number, in either operand
order, repeats the string `⌊n⌋` times where a negative floor is treated
as zero; a NaN count also gives the empty string; multiplying two
strings, or any combination involving a `Boolean` or an `Array`, is an
`OperationError`. -/
theorem c5_string_times_number :
    (∀ s q, ovMul (.string s) (.number (.num q)) =
        .ok (.string (strRepeat s (Int.toNat ⌊q⌋))) ∧
      ovMul (.number (.num q)) (.string s) =
        .ok (.string (strRepeat s (Int.toNat ⌊q⌋)))) ∧
    (∀ s q, q < 0 → ovMul (.string s) (.number (.num q)) = .ok (.string "")) ∧
    (∀ s, ovMul (.string s) (.number .nan) = .ok (.string "") ∧
      ovMul (.number .nan) (.string s) = .ok (.string "")) ∧
    (∀ s t, ovMul (.string s) (.string t) = .error .operationError) ∧
    (∀ v w, isBoolOrArray v ∨ isBoolOrArray w → ovMul v w = .error .operationError) := by
  refine ⟨fun s q => ⟨rfl, rfl⟩, ?_, fun s => ⟨rfl, rfl⟩, fun s t => rfl, ?_⟩
  · intro s q hq
    have hfloor : Int.toNat ⌊q⌋ = 0 :=
      Int.toNat_of_nonpos (Int.floor_nonpos (le_of_lt hq))
    have h1 : ovMul (.string s) (.number (.num q)) =
        .ok (.string (strRepeat s (Int.toNat ⌊q⌋))) := rfl
    rw [hfloor] at h1
    exact h1
  · rintro v w ((⟨b, rfl⟩ | ⟨vs, rfl⟩) | (⟨b, rfl⟩ | ⟨vs, rfl⟩))
    · cases w <;> rfl
    · cases w <;> rfl
    · cases v <;> rfl
    · cases v <;> rfl

/-- Witness for `c5_string_times_number` at concrete inputs:
`"ab" * (-2) = ""` and `true * 1` is an `OperationError`. -/
theorem c5_string_times_number_witness :
    ovMul (.string "ab") (.number (.num (-2))) = .ok (.string "") ∧
    ovMul (.boolean true) (.number (.num 1)) = .error .operationError :=
  ⟨c5_string_times_number.2.1 "ab" (-2) (by norm_num),
   c5_string_times_number.2.2.2.2 (.boolean true) (.number (.num 1))
     (Or.inl (Or.inl ⟨true, rfl⟩))⟩

/-! ## C3 -/

/-- The stringification applied to evaluated children agrees with the
value's `to_string` rendering (strings render as themselves). -/
theorem renderInner_eq_render (v : OwnedValue) : renderInner v = v.render := by
  cases v <;> rfl

/-- Unfolding equation: the `ForIn` loop on an empty element list. -/
theorem for_in_loop_nil (evb : Locals → Except EvalFault Value) (x : String)
    (locals : Locals) (s buffer : String) :
    for_in_loop evb x locals s [] buffer = .ok (.owned (.string buffer)) := rfl

/-- Unfolding equation: one iteration of the `ForIn` loop. -/
theorem for_in_loop_cons (evb : Locals → Except EvalFault Value) (x : String)
    (locals : Locals) (s : String) (item : OwnedValue) (rest : List OwnedValue)
    (buffer : String) :
    for_in_loop evb x locals s (item :: rest) buffer =
      (match evb (localsInsert locals x (.borrowed item)) with
       | .error e => .error e
       | .ok v =>
         for_in_loop evb x locals s rest
           (buffer ++ renderInner v.inner ++ (if rest.isEmpty then "" else s))) := rfl

/-- If the body evaluation renders every bound element like the
element's own rendering, the `ForIn` loop produces the renderings joined
by the separator, with no separator after the last element. -/
theorem for_in_loop_join (evb : Locals → Except EvalFault Value) (x : String)
    (locals : Locals) (s : String)
    (h : ∀ item, ∃ v, evb (localsInsert locals x (.borrowed item)) = .ok v ∧
      renderInner v.inner = item.render) :
    ∀ (items : List OwnedValue) (buffer : String),
      for_in_loop evb x locals s items buffer =
        .ok (.owned (.string (buffer ++ joinSep s (items.map OwnedValue.render)))) := by
  intro items
  induction items with
  | nil => intro buffer; rw [for_in_loop_nil]; simp [joinSep, String.append_empty]
  | cons item rest ih =>
    intro buffer
    obtain ⟨v, hv, hr⟩ := h item
    cases rest with
    | nil =>
      have step : for_in_loop evb x locals s [item] buffer =
          for_in_loop evb x locals s [] (buffer ++ renderInner v.inner ++ "") := by
        rw [for_in_loop_cons, hv]
        rfl
      rw [step, for_in_loop_nil]
      simp [hr, joinSep, String.append_empty]
    | cons r t =>
      have step : for_in_loop evb x locals s (item :: r :: t) buffer =
          for_in_loop evb x locals s (r :: t) (buffer ++ renderInner v.inner ++ s) := by
        rw [for_in_loop_cons, hv]
        rfl
      rw [step, ih]
      simp [hr, joinSep, String.append_assoc]

/-- Unfolding equation: evaluating a literal value borrows it. -/
theorem eval_node_value (fuel : Nat) (v : OwnedValue) (vars : Vars) (funcs : Funcs)
    (locals : Locals) :
    eval_node (fuel + 1) (.value v) vars funcs locals = .ok (.borrowed v) := rfl

/-- Unfolding equation: a `ForIn` over an array-literal iterable with a
string-literal separator runs the loop directly. -/
theorem eval_node_forIn_lit (fuel : Nat) (id : String) (A : List OwnedValue)
    (s : String) (bodyN : Node) (vars : Vars) (funcs : Funcs) (locals : Locals) :
    eval_node (fuel + 2)
        (.forIn id (.value (.array A)) bodyN (some (.value (.string s)))) vars funcs locals =
      for_in_loop (fun l => eval_node (fuel + 1) bodyN vars funcs l) id locals s A "" := rfl

/-- Unfolding equation for a `ForIn` without separator. -/
theorem eval_node_forIn_none (fuel : Nat) (id : String) (arrN bodyN : Node)
    (vars : Vars) (funcs : Funcs) (locals : Locals) :
    eval_node (fuel + 1) (.forIn id arrN bodyN none) vars funcs locals =
      (match eval_node fuel arrN vars funcs locals with
       | .error e => .error e
       | .ok av =>
         match av.inner with
         | .array items =>
           for_in_loop (fun l => eval_node fuel bodyN vars funcs l) id locals "" items ""
         | v => .error (.err (.iterateError v))) := rfl

/-- Unfolding equation for a `ForIn` with a string-literal separator. -/
theorem eval_node_forIn_sepLit (fuel : Nat) (id : String) (arrN bodyN : Node)
    (s : String) (vars : Vars) (funcs : Funcs) (locals : Locals) :
    eval_node (fuel + 2)
        (.forIn id arrN bodyN (some (.value (.string s)))) vars funcs locals =
      (match eval_node (fuel + 1) arrN vars funcs locals with
       | .error e => .error e
       | .ok av =>
         match av.inner with
         | .array items =>
           for_in_loop (fun l => eval_node (fuel + 1) bodyN vars funcs l) id locals s items ""
         | v => .error (.err (.iterateError v))) := rfl

/-- Evaluating the body `{{x}}` under the loop binding of `x` to a
borrowed element yields that element's rendering. -/
theorem body_var_eval (fuel : Nat) (x : String) (vars : Vars) (funcs : Funcs)
    (locals : Locals) (item : OwnedValue) :
    eval_node (fuel + 2) (.body [.var x]) vars funcs (localsInsert locals x (.borrowed item)) =
      .ok (.owned (.string (renderInner item))) := by
  simp [eval_node, eval_body_list, localsGet, localsInsert, List.find?, Value.inner,
    String.empty_append]

/-- C3: evaluating a `ForIn` node whose iterable is an array literal
value `A` and whose separator is the string literal `s`, with body
`{{x}}`, renders the elements of `A` joined by `s` with no trailing
separator (for `A = []` the join is the empty string); a for-loop over
an iterable evaluating to the empty array yields the empty string for
every body, both without a separator and with a string-literal
separator; and the template `{{for x in [1,2] " "}}{{x}}{{/for}}`
renders to `1 2`. -/
theorem c3_for_in_join :
    (∀ fuel (A : List OwnedValue) (s x : String) (vars : Vars) (funcs : Funcs),
      eval_node (fuel + 3)
          (.forIn x (.value (.array A)) (.body [.var x]) (some (.value (.string s))))
          vars funcs [] =
        .ok (.owned (.string (joinSep s (A.map OwnedValue.render))))) ∧
    (∀ fuel x it bodyN (vars : Vars) (funcs : Funcs) locals av,
      eval_node fuel it vars funcs locals = .ok av → av.inner = .array [] →
      eval_node (fuel + 1) (.forIn x it bodyN none) vars funcs locals =
        .ok (.owned (.string ""))) ∧
    (∀ fuel x it bodyN (s : String) (vars : Vars) (funcs : Funcs) locals av,
      eval_node (fuel + 1) it vars funcs locals = .ok av → av.inner = .array [] →
      eval_node (fuel + 2) (.forIn x it bodyN (some (.value (.string s)))) vars funcs locals =
        .ok (.owned (.string ""))) ∧
    render_template srcForSpace emptyVars emptyFuncs = .ok "1 2" := by
  refine ⟨?_, ?_, ?_, by with_unfolding_all rfl⟩
  · intro fuel A s x vars funcs
    have hloop := for_in_loop_join
      (fun l => eval_node (fuel + 2) (.body [.var x]) vars funcs l) x [] s
      (fun item => ⟨.owned (.string (renderInner item)),
        body_var_eval fuel x vars funcs [] item, renderInner_eq_render item⟩)
      A ""
    rw [eval_node_forIn_lit (fuel + 1), hloop, String.empty_append]
  · intro fuel x it bodyN vars funcs locals av h harr
    cases av with
    | borrowed w =>
      simp only [Value.inner] at harr
      subst harr
      rw [eval_node_forIn_none, h]
      rfl
    | owned w =>
      simp only [Value.inner] at harr
      subst harr
      rw [eval_node_forIn_none, h]
      rfl
  · intro fuel x it bodyN s vars funcs locals av h harr
    cases av with
    | borrowed w =>
      simp only [Value.inner] at harr
      subst harr
      rw [eval_node_forIn_sepLit, h]
      rfl
    | owned w =>
      simp only [Value.inner] at harr
      subst harr
      rw [eval_node_forIn_sepLit, h]
      rfl

/-- Witness for `c3_for_in_join` at concrete inputs: the loop over
`[1, 2]` with separator `" "` evaluates to `"1 2"`, and a loop over the
empty array with an arbitrary body evaluates to `""`. -/
theorem c3_for_in_join_witness :
    eval_node 3
        (.forIn "x" (.value (.array [.number (.num 1), .number (.num 2)]))
          (.body [.var "x"]) (some (.value (.string " "))))
        emptyVars emptyFuncs [] =
      .ok (.owned (.string "1 2")) ∧
    eval_node 2 (.forIn "y" (.value (.array [])) (.var "whatever") none)
        emptyVars emptyFuncs [] =
      .ok (.owned (.string "")) :=
  ⟨(c3_for_in_join.1 0 [.number (.num 1), .number (.num 2)] " " "x" emptyVars emptyFuncs).trans
    (by with_unfolding_all rfl),
   c3_for_in_join.2.1 1 "y" (.value (.array [])) (.var "whatever") emptyVars emptyFuncs []
     (.borrowed (.array [])) rfl rfl⟩

/-! ## C10 -/

/-- The evaluator invariant: every binding in the locals map is a
borrowed value. -/
def AllBorrowed (locals : Locals) : Prop :=
  ∀ p ∈ locals, ∃ v, p.2 = Value.borrowed v

/-- The loop binding preserves the all-borrowed invariant. -/
theorem allBorrowed_insert (locals : Locals) (x : String) (item : OwnedValue)
    (h : AllBorrowed locals) : AllBorrowed (localsInsert locals x (.borrowed item)) := by
  intro p hp
  rcases List.mem_cons.mp hp with hp | hp
  · exact ⟨item, by rw [hp]⟩
  · exact h p hp

/-- `Body` evaluation never produces the `Variable`-arm panic if the
child evaluation does not. -/
theorem eval_body_list_npv (ev : Node → Except EvalFault Value)
    (h : ∀ m, ev m ≠ .error .panicVariable) :
    ∀ ns buf, eval_body_list ev ns buf ≠ .error .panicVariable := by
  intro ns
  induction ns with
  | nil => intro buf hq; exact Except.noConfusion hq
  | cons n ns ih =>
    intro buf
    simp only [eval_body_list]
    split
    · next e heq => intro hq; injection hq with hc; exact h n (hc ▸ heq)
    · next v heq => exact ih _

/-- Argument evaluation never produces the `Variable`-arm panic if the
child evaluation does not. -/
theorem eval_args_npv (ev : Node → Except EvalFault Value)
    (h : ∀ m, ev m ≠ .error .panicVariable) :
    ∀ ns acc, eval_args ev ns acc ≠ .error .panicVariable := by
  intro ns
  induction ns with
  | nil => intro acc hq; exact Except.noConfusion hq
  | cons n ns ih =>
    intro acc
    simp only [eval_args]
    split
    · next e heq => intro hq; injection hq with hc; exact h n (hc ▸ heq)
    · next v heq => exact ih _

/-- Array-element evaluation never produces the `Variable`-arm panic if
the child evaluation does not. -/
theorem eval_array_items_npv (ev : Node → Except EvalFault Value)
    (h : ∀ m, ev m ≠ .error .panicVariable) :
    ∀ ns acc, eval_array_items ev ns acc ≠ .error .panicVariable := by
  intro ns
  induction ns with
  | nil => intro acc hq; exact Except.noConfusion hq
  | cons n ns ih =>
    intro acc
    simp only [eval_array_items]
    split
    · next e heq => intro hq; injection hq with hc; exact h n (hc ▸ heq)
    · next v heq => exact ih _

/-- The `ForIn` loop never produces the `Variable`-arm panic if the body
evaluation under each loop binding does not. -/
theorem for_in_loop_npv (evb : Locals → Except EvalFault Value) (x : String)
    (locals : Locals) (s : String)
    (h : ∀ item, evb (localsInsert locals x (.borrowed item)) ≠ .error .panicVariable) :
    ∀ items buffer, for_in_loop evb x locals s items buffer ≠ .error .panicVariable := by
  intro items
  induction items with
  | nil => intro buffer hq; exact Except.noConfusion hq
  | cons item rest ih =>
    intro buffer
    simp only [for_in_loop]
    split
    · next e heq => intro hq; injection hq with hc; exact h item (hc ▸ heq)
    · next v heq => exact ih _

/-- Under the all-borrowed locals invariant, `Node::_evaluate` never
takes the `panic!()` arm of the `Variable` lookup: every recursive call
passes an all-borrowed map (the loop binding is a borrow of an evaluated
array element), so the non-borrowed match arms are unreachable. -/
theorem eval_node_npv :
    ∀ (fuel : Nat) (n : Node) (vars : Vars) (funcs : Funcs) (locals : Locals),
      AllBorrowed locals → eval_node fuel n vars funcs locals ≠ .error .panicVariable := by
  intro fuel
  induction fuel with
  | zero =>
    intro n vars funcs locals _ hq
    injection hq with hc
    exact EvalFault.noConfusion hc
  | succ fuel ih =>
    intro n vars funcs locals hb
    cases n with
    | body nodes =>
      exact eval_body_list_npv _ (fun m => ih m vars funcs locals hb) nodes ""
    | value v => intro hq; exact Except.noConfusion hq
    | var id =>
      simp only [eval_node]
      split
      · intro hq; exact Except.noConfusion hq
      · next w heq =>
        exfalso
        obtain ⟨p, hfind, hp2⟩ := Option.map_eq_some'.mp heq
        have hmem := List.mem_of_find?_eq_some hfind
        obtain ⟨u, hu⟩ := hb p hmem
        rw [hu] at hp2
        exact Value.noConfusion hp2
      · split
        · intro hq; exact Except.noConfusion hq
        · intro hq; injection hq with hc; exact EvalFault.noConfusion hc
    | functionCall id args =>
      simp only [eval_node]
      split
      · intro hq; injection hq with hc; exact EvalFault.noConfusion hc
      · split
        · next e heq =>
          intro hq; injection hq with hc
          exact eval_args_npv _ (fun m => ih m vars funcs locals hb) args [] (hc ▸ heq)
        · intro hq; exact Except.noConfusion hq
    | array nodes =>
      simp only [eval_node]
      split
      · next e heq =>
        intro hq; injection hq with hc
        exact eval_array_items_npv _ (fun m => ih m vars funcs locals hb) nodes [] (hc ▸ heq)
      · intro hq; exact Except.noConfusion hq
    | operation lhs op rhs =>
      simp only [eval_node]
      split
      · next e heq => intro hq; injection hq with hc; exact ih lhs vars funcs locals hb (hc ▸ heq)
      · split
        · next e heq => intro hq; injection hq with hc; exact ih rhs vars funcs locals hb (hc ▸ heq)
        · split <;> (try split) <;>
            first
            | (intro hq; exact Except.noConfusion hq)
            | (intro hq; injection hq with hc; exact EvalFault.noConfusion hc)
    | not m =>
      simp only [eval_node]
      split
      · next e heq => intro hq; injection hq with hc; exact ih m vars funcs locals hb (hc ▸ heq)
      · intro hq; exact Except.noConfusion hq
    | negate m =>
      simp only [eval_node]
      split
      · next e heq => intro hq; injection hq with hc; exact ih m vars funcs locals hb (hc ▸ heq)
      · split
        · intro hq; exact Except.noConfusion hq
        · intro hq; injection hq with hc; exact EvalFault.noConfusion hc
    | ifThenElse c t e? =>
      simp only [eval_node]
      split
      · next e heq => intro hq; injection hq with hc; exact ih c vars funcs locals hb (hc ▸ heq)
      · split
        · exact ih t vars funcs locals hb
        · split
          · exact ih _ vars funcs locals hb
          · intro hq; exact Except.noConfusion hq
    | forIn id arrN bodyN sep? =>
      simp only [eval_node]
      split
      · next e heq => intro hq; injection hq with hc; exact ih arrN vars funcs locals hb (hc ▸ heq)
      · split
        · split
          · exact for_in_loop_npv _ id locals ""
              (fun item => ih bodyN vars funcs _ (allBorrowed_insert locals id item hb)) _ ""
          · split
            · next e heq =>
              intro hq; injection hq with hc
              exact ih _ vars funcs locals hb (hc ▸ heq)
            · exact for_in_loop_npv _ id locals _
                (fun item => ih bodyN vars funcs _ (allBorrowed_insert locals id item hb)) _ ""
            · intro hq; injection hq with hc; exact EvalFault.noConfusion hc
            · intro hq; injection hq with hc; exact EvalFault.noConfusion hc
        · intro hq; injection hq with hc; exact EvalFault.noConfusion hc

/-- C10: the evaluator invariant.  Under an all-borrowed locals map —
which every recursive call of `_evaluate` maintains, since each `ForIn`
iteration binds the loop variable to a borrow of an already-evaluated
array element in a copy of the caller's map — the non-borrowed arm of
the `Variable` lookup (the `panic!()` branch) is unreachable; in
particular `Node::evaluate`, which starts from the empty locals map,
never reaches it for any node, variables and functions. -/
theorem c10_locals_all_borrowed_no_variable_panic :
    (∀ (fuel : Nat) (n : Node) (vars : Vars) (funcs : Funcs) (locals : Locals),
      AllBorrowed locals → eval_node fuel n vars funcs locals ≠ .error .panicVariable) ∧
    (∀ (fuel : Nat) (n : Node) (vars : Vars) (funcs : Funcs),
      evaluate_f fuel n vars funcs ≠ .error .panicVariable) := by
  refine ⟨eval_node_npv, ?_⟩
  intro fuel n vars funcs
  have hb : AllBorrowed ([] : Locals) := fun p hp => absurd hp (List.not_mem_nil p)
  simp only [evaluate_f]
  split
  · next e heq => intro hq; injection hq with hc; exact eval_node_npv fuel n vars funcs [] hb (hc ▸ heq)
  · intro hq; exact Except.noConfusion hq
  · intro hq; injection hq with hc; exact EvalFault.noConfusion hc

/-- Witness for `c10_locals_all_borrowed_no_variable_panic` at a
concrete input: a singleton all-borrowed locals map, under which looking
up the bound variable does not hit the panic arm. -/
theorem c10_locals_all_borrowed_no_variable_panic_witness :
    AllBorrowed [("x", Value.borrowed (.number (.num 1)))] ∧
    eval_node 1 (.var "x") emptyVars emptyFuncs [("x", Value.borrowed (.number (.num 1)))] ≠
      .error .panicVariable := by
  have hb : AllBorrowed [("x", Value.borrowed (.number (.num 1)))] := by
    intro p hp
    rcases List.mem_cons.mp hp with hp | hp
    · exact ⟨.number (.num 1), by rw [hp]⟩
    · exact absurd hp (List.not_mem_nil p)
  exact ⟨hb, c10_locals_all_borrowed_no_variable_panic.1 1 (.var "x") emptyVars emptyFuncs
    [("x", Value.borrowed (.number (.num 1)))] hb⟩

/-! ## C7 -/

/-- C7 counterexample: the out-of-band `ExpectedToken` signal is not
always caught.  A block-terminator template at the top level — outside
any `if`/`for` body — propagates the signal to the caller of the
parser: `parse_input "{{else}}"` returns `ExpectedToken(Keyword(Else))`,
contradicting the claim that the caller only ever sees a syntax tree or
an ordinary error kind. -/
theorem c7_counterexample_stray_else_escapes :
    parse_input srcStrayElse = .error (.err (.expectedToken (.keyword .kElse))) := rfl

/-- C7 (amended): `parse_template` raises the `ExpectedToken` signal
exactly for the first tokens `elif`, `else`, `in` and the `/` operator;
the signal is caught by `parse_if` / `parse_for` / `parse_else` when the
terminator template occurs while parsing an `if`/`for` body — templates
with complete `if`/`elif` and `for` blocks parse successfully — but a
terminator at the top level escapes to the caller
(`c7_counterexample_stray_else_escapes`). -/
theorem c7_expected_token_signal :
    (∀ (fuel : Nat) (ps : PState) (k : Keyword),
      k = .kElif ∨ k = .kElse ∨ k = .kIn →
      parse_template (fuel + 1) ⟨ps.lexer, .keyword k :: ps.buffer⟩ =
        (.error (.err (.expectedToken (.keyword k))), ps)) ∧
    (∀ (fuel : Nat) (ps : PState),
      parse_template (fuel + 1) ⟨ps.lexer, .operator .divide :: ps.buffer⟩ =
        (.error (.err (.expectedToken (.operator .divide))), ps)) ∧
    parse_input srcIfElif =
      .ok (.body [.ifThenElse
        (.operation (.var "a") .isEqualTo (.var "b"))
        (.body [.value (.string "a==b")])
        (some (.ifThenElse
          (.operation (.var "a") .isNotEqualTo (.var "b"))
          (.body [.value (.string "a!=b")])
          none))]) ∧
    parse_input srcForPlain =
      .ok (.body [.forIn "x" (.array [.value (.number (.num 1))])
        (.body [.value (.string "y")]) none]) := by
  refine ⟨?_, fun fuel ps => rfl, by with_unfolding_all rfl, by with_unfolding_all rfl⟩
  rintro fuel ps k (rfl | rfl | rfl) <;> rfl

/-- Witness for `c7_expected_token_signal` at a concrete input: a
buffered `else` keyword makes `parse_template` return the
`ExpectedToken` signal. -/
theorem c7_expected_token_signal_witness :
    parse_template 1 ⟨⟨[], [], true⟩, [.keyword .kElse]⟩ =
      (.error (.err (.expectedToken (.keyword .kElse))), ⟨⟨[], [], true⟩, []⟩) :=
  c7_expected_token_signal.1 0 ⟨⟨[], [], true⟩, []⟩ .kElse (Or.inr (Or.inl rfl))

/-! ## C6 -/

/-- `advance_while` consumes exactly the longest matching prefix. -/
theorem advance_while_eq (f : Char → Bool) :
    ∀ (rem pend : List Char),
      advance_while f rem pend = (rem.dropWhile f, pend ++ rem.takeWhile f) := by
  intro rem
  induction rem with
  | nil => intro pend; simp [advance_while, List.dropWhile, List.takeWhile]
  | cons c rest ih =>
    intro pend
    by_cases hfc : f c
    · simp [advance_while, List.dropWhile, List.takeWhile, hfc, ih]
    · simp [advance_while, List.dropWhile, List.takeWhile, hfc]

/-- Outside a template, `yield_token_f` never retries unless the head
character is `{`; its result is therefore fuel-independent from fuel 1
upward. -/
theorem yield_token_f_outside_nonbrace (f : Nat) (st : LexState)
    (hin : st.is_inside_template = false)
    (hhd : ∀ c, st.rem.head? = some c → c ≠ '{') :
    yield_token_f (f + 1) st = yield_token_f 1 st := by
  cases hrem : st.rem with
  | nil => simp only [yield_token_f, hrem]
  | cons c rest =>
    have hc : c ≠ '{' := hhd c (by rw [hrem]; rfl)
    simp only [yield_token_f, hrem, hin]
    simp [hc]

/-- C6 counterexample: a lone `{` at the very end of the source is not
treated as literal text.  The source `"{"` lexes to no tokens at all and
renders to the empty string, so the brace does not appear in the
rendered output. -/
theorem c6_counterexample_trailing_brace_dropped :
    render_template srcLoneBrace emptyVars emptyFuncs = .ok "" ∧
    lex_all srcLoneBrace = .ok [] ∧
    "" ≠ srcLoneBrace :=
  ⟨rfl, rfl, by decide⟩

/-- C6 (amended): a lone `{` outside a template (one not immediately
followed by a second `{`) does not open a template and is retained in
the pending text run — the lexer continues scanning from the next
character with the brace appended to the pending slice; when the
following character is not a quote, the next token is a `Text` token
that contains the brace (so the brace appears in the rendered output,
e.g. `{a}` renders to `{a}`); but a lone `{` that is the last character
of the source is consumed without emitting any token and is dropped
(`c6_counterexample_trailing_brace_dropped`), and a lone `{` directly
before a quote character is likewise lost to the following string
literal. -/
theorem c6_lone_brace_is_text :
    (∀ (c : Char) (rest p : List Char), c ≠ '{' →
      yield_token ⟨'{' :: c :: rest, p, false⟩ = yield_token ⟨c :: rest, p ++ ['{'], false⟩) ∧
    (∀ (c : Char) (rest p : List Char), c ≠ '{' → c ≠ '"' → c ≠ squote →
      yield_token ⟨'{' :: c :: rest, p, false⟩ =
        .ok (some (.text (String.mk (p ++ '{' :: c :: rest.takeWhile (fun ch => !(ch = '{'))))),
          ⟨rest.dropWhile (fun ch => !(ch = '{')), [], false⟩)) ∧
    (∀ p : List Char, yield_token ⟨['{'], p, false⟩ = .ok (none, ⟨[], p ++ ['{'], false⟩)) ∧
    render_template srcBraceA emptyVars emptyFuncs = .ok srcBraceA := by
  have part1 : ∀ (c : Char) (rest p : List Char), c ≠ '{' →
      yield_token ⟨'{' :: c :: rest, p, false⟩ = yield_token ⟨c :: rest, p ++ ['{'], false⟩ := by
    intro c rest p hc
    show yield_token_f 2 _ = yield_token_f 2 _
    rw [yield_token_f_outside_nonbrace 1 ⟨c :: rest, p ++ ['{'], false⟩ rfl
      (fun d hd => by injection hd with hd'; rw [← hd']; exact hc)]
    simp only [yield_token_f]
    simp [hc]
  refine ⟨part1, ?_, fun p => rfl, rfl⟩
  intro c rest p hc hq hsq
  rw [part1 c rest p hc]
  show yield_token_f 2 _ = _
  simp only [yield_token_f]
  simp [hc, hq, hsq, advance_while_eq, List.append_assoc]

/-- Witness for `c6_lone_brace_is_text` at a concrete input: after a
lone `{`, the character `a` and the rest of `{a}` are absorbed into one
`Text` token that contains the brace. -/
theorem c6_lone_brace_is_text_witness :
    yield_token ⟨['{', 'a', '}'], [], false⟩ =
      .ok (some (.text (String.mk ['{', 'a', '}'])), ⟨[], [], false⟩) := by
  have h := c6_lone_brace_is_text.2.1 'a' ['}'] [] (by decide) (by decide) (by decide)
  simpa using h

/-! ## C9 -/

/-- The ASCII identifier class of the claim: `[A-Za-z0-9_]`. -/
def isAsciiIdentChar (c : Char) : Bool :=
  isAsciiAlpha c || isAsciiDigit c || c = '_'

/-- C9 counterexample: inside a template the identifier scan continues
through Rust's Unicode `char::is_alphanumeric`, not the ASCII class
`[A-Za-z0-9_]`.  The source `{{né}}` lexes to a single identifier token
`né` containing `é` (U+00E9), a character outside the ASCII class. -/
theorem c9_counterexample_non_ascii_identifier :
    lex_all srcNonAsciiIdent = .ok [.templateOpen, .identifier (String.mk ['n', 'é']), .templateClose] ∧
    ¬ (∀ c ∈ (String.mk ['n', 'é']).data, isAsciiIdentChar c = true) :=
  ⟨rfl, by decide⟩

/-- C9 (amended): inside a template a token starting with an ASCII
letter or `_` is scanned maximally through the continuation class
`'_' or char::is_alphanumeric` — Unicode alphanumerics, a superset of
the ASCII class `[A-Za-z0-9_]` (`rustIsAlphanumeric` models the Rust
predicate exactly below U+0100) — and becomes a `Keyword` token when
the lexeme is one of `if`, `elif`, `else`, `for`, `in`, an `Identifier`
otherwise; a character inside a template that starts no token form
yields an `UnexpectedCharacter` error. -/
theorem c9_identifier_lexing :
    (∀ (c : Char) (rest : List Char), (isAsciiAlpha c || c = '_') = true →
      yield_token ⟨c :: rest, [], true⟩ =
        .ok (some (identToToken (String.mk
            (c :: rest.takeWhile (fun ch => ch = '_' || rustIsAlphanumeric ch)))),
          ⟨rest.dropWhile (fun ch => ch = '_' || rustIsAlphanumeric ch), [], true⟩)) ∧
    (∀ s, identToToken s =
      (if s = "if" then .keyword .kIf
       else if s = "elif" then .keyword .kElif
       else if s = "else" then .keyword .kElse
       else if s = "for" then .keyword .kFor
       else if s = "in" then .keyword .kIn
       else .identifier s)) ∧
    (∀ (c : Char) (rest : List Char),
      c ≠ '{' → c ≠ '}' → (isAsciiAlpha c || c = '_') = false →
      (isAsciiDigit c || c = '.') = false → c ≠ '"' → c ≠ squote →
      c ≠ '(' → c ≠ ')' → c ≠ '[' → c ≠ ']' →
      c ≠ '*' → c ≠ '/' → c ≠ '+' → c ≠ '-' → c ≠ ',' → c ≠ '=' → c ≠ '!' →
      c ≠ '&' → c ≠ '|' → rustIsWhitespace c = false →
      yield_token ⟨c :: rest, [], true⟩ = .error (.unexpectedCharacter c)) := by
  refine ⟨?_, fun s => rfl, ?_⟩
  · intro c rest hstart
    have hc : c ≠ '{' := by
      rintro rfl
      simp [isAsciiAlpha] at hstart
    have hc2 : c ≠ '}' := by
      rintro rfl
      simp [isAsciiAlpha] at hstart
    show yield_token_f 2 _ = _
    simp only [yield_token_f]
    simp [hc, hc2, hstart, advance_while_eq]
  · intro c rest h1 h2 h3 h4 h5 h6 h7 h8 h9 h10 h11 h12 h13 h14 h15 h16 h17 h18 h19 h20
    show yield_token_f 2 _ = _
    simp only [yield_token_f]
    simp [h1, h2, h3, h4, h5, h6, h7, h8, h9, h10, h11, h12, h13, h14, h15, h16, h17, h18,
      h19, h20]

/-- Witness for `c9_identifier_lexing` at concrete inputs: `elif` is
scanned maximally and becomes a keyword, and `#` inside a template is an
`UnexpectedCharacter`. -/
theorem c9_identifier_lexing_witness :
    yield_token ⟨['e', 'l', 'i', 'f', ' '], [], true⟩ =
      .ok (some (.keyword .kElif), ⟨[' '], [], true⟩) ∧
    yield_token ⟨['#'], [], true⟩ = .error (.unexpectedCharacter '#') := by
  constructor
  · have h := c9_identifier_lexing.1 'e' ['l', 'i', 'f', ' '] (by decide)
    simpa using h
  · exact c9_identifier_lexing.2.2 '#' [] (by decide) (by decide) (by decide) (by decide)
      (by decide) (by decide) (by decide) (by decide) (by decide) (by decide) (by decide)
      (by decide) (by decide) (by decide) (by decide) (by decide) (by decide) (by decide)
      (by decide) (by decide)

/-! ## C8: lexer-side whitespace lemmas -/

/-- A character is never equal to another whose code point differs. -/
theorem char_ne_of_toNat_ne {c d : Char} (h : c.toNat ≠ d.toNat) : c ≠ d :=
  fun he => h (by rw [he])

/-- Every Unicode `White_Space` code point is at most 0x20 or at least
0x85; in particular none of the lexer's special characters (all in the
ASCII range 0x21–0x7D) is whitespace. -/
theorem ws_range (w : Char) (h : rustIsWhitespace w = true) :
    w.toNat ≤ 32 ∨ 133 ≤ w.toNat := by
  simp [rustIsWhitespace] at h
  omega

/-- Skipping the whitespace arm: a whitespace head inside a template
consumes the whole whitespace run, clears the pending slice, and
retries. -/
theorem ws_skip (f : Nat) (w : Char) (tail pend : List Char)
    (h : rustIsWhitespace w = true) :
    yield_token_f (f + 1) ⟨w :: tail, pend, true⟩ =
      yield_token_f f ⟨tail.dropWhile rustIsWhitespace, [], true⟩ := by
  have hr := ws_range w h
  have n1 : w ≠ '{' := char_ne_of_toNat_ne (by show w.toNat ≠ 123; omega)
  have n2 : w ≠ '}' := char_ne_of_toNat_ne (by show w.toNat ≠ 125; omega)
  have n3 : w ≠ '_' := char_ne_of_toNat_ne (by show w.toNat ≠ 95; omega)
  have n4 : w ≠ '.' := char_ne_of_toNat_ne (by show w.toNat ≠ 46; omega)
  have n5 : w ≠ '"' := char_ne_of_toNat_ne (by show w.toNat ≠ 34; omega)
  have n6 : w ≠ squote := char_ne_of_toNat_ne (by show w.toNat ≠ 39; omega)
  have n7 : w ≠ '(' := char_ne_of_toNat_ne (by show w.toNat ≠ 40; omega)
  have n8 : w ≠ ')' := char_ne_of_toNat_ne (by show w.toNat ≠ 41; omega)
  have n9 : w ≠ '[' := char_ne_of_toNat_ne (by show w.toNat ≠ 91; omega)
  have n10 : w ≠ ']' := char_ne_of_toNat_ne (by show w.toNat ≠ 93; omega)
  have n11 : w ≠ '*' := char_ne_of_toNat_ne (by show w.toNat ≠ 42; omega)
  have n12 : w ≠ '/' := char_ne_of_toNat_ne (by show w.toNat ≠ 47; omega)
  have n13 : w ≠ '+' := char_ne_of_toNat_ne (by show w.toNat ≠ 43; omega)
  have n14 : w ≠ '-' := char_ne_of_toNat_ne (by show w.toNat ≠ 45; omega)
  have n15 : w ≠ ',' := char_ne_of_toNat_ne (by show w.toNat ≠ 44; omega)
  have n16 : w ≠ '=' := char_ne_of_toNat_ne (by show w.toNat ≠ 61; omega)
  have n17 : w ≠ '!' := char_ne_of_toNat_ne (by show w.toNat ≠ 33; omega)
  have n18 : w ≠ '&' := char_ne_of_toNat_ne (by show w.toNat ≠ 38; omega)
  have n19 : w ≠ '|' := char_ne_of_toNat_ne (by show w.toNat ≠ 124; omega)
  have na : isAsciiAlpha w = false := by simp [isAsciiAlpha]; omega
  have nd : isAsciiDigit w = false := by simp [isAsciiDigit]; omega
  simp only [yield_token_f]
  simp [n1, n2, n3, n4, n5, n6, n7, n8, n9, n10, n11, n12, n13, n14, n15, n16, n17, n18,
    n19, na, nd, h, advance_while_eq]

/-- Inside a template with a non-whitespace head (or no input left),
`yield_token_f` takes no retry and is fuel-independent from fuel 1
upward. -/
theorem yield_token_f_inside_nonws (f : Nat) (st : LexState)
    (hin : st.is_inside_template = true)
    (hhd : ∀ c, st.rem.head? = some c → rustIsWhitespace c = false) :
    yield_token_f (f + 1) st = yield_token_f 1 st := by
  cases hrem : st.rem with
  | nil => simp only [yield_token_f, hrem]
  | cons c rest =>
    have hc : rustIsWhitespace c = false := hhd c (by rw [hrem]; rfl)
    simp only [yield_token_f, hrem, hin]
    simp [hc]

/-- One whitespace character in front of the remaining input does not
change the next token (nor the lexer state after it) at an
inside-template token boundary. -/
theorem ws_step (w : Char) (tail : List Char) (h : rustIsWhitespace w = true) :
    yield_token ⟨w :: tail, [], true⟩ = yield_token ⟨tail, [], true⟩ := by
  show yield_token_f 2 _ = yield_token_f 2 _
  rw [ws_skip 1 w tail [] h]
  cases tail with
  | nil => rfl
  | cons t ts =>
    by_cases hw : rustIsWhitespace t = true
    · rw [ws_skip 1 t ts [] hw]
      simp [List.dropWhile, hw]
    · have hw' : rustIsWhitespace t = false := by
        cases hq : rustIsWhitespace t
        · rfl
        · exact absurd hq hw
      rw [yield_token_f_inside_nonws 1 ⟨t :: ts, [], true⟩ rfl
        (fun c hc => by injection hc with hc'; rw [← hc']; exact hw')]
      simp [List.dropWhile, hw']

/-- A whitespace run in front of the remaining input does not change
the next token at an inside-template token boundary. -/
theorem ws_run_inert (ws rest : List Char) (h : ∀ c ∈ ws, rustIsWhitespace c = true) :
    yield_token ⟨ws ++ rest, [], true⟩ = yield_token ⟨rest, [], true⟩ := by
  induction ws with
  | nil => rfl
  | cons w ws ih =>
    rw [List.cons_append, ws_step w (ws ++ rest) (h w (List.mem_cons_self w ws))]
    exact ih (fun c hc => h c (List.mem_cons_of_mem w hc))

/-! ## C8: parser-side simulation -/

/-- Two lexer states are observationally similar when the next
`yield_token` call returns identical results (token and successor state
alike). -/
def LexSim (l1 l2 : LexState) : Prop := yield_token l1 = yield_token l2

/-- Parser-state similarity: identical pushback buffers over similar
lexer states. -/
def PSim (p1 p2 : PState) : Prop := p1.buffer = p2.buffer ∧ LexSim p1.lexer p2.lexer

/-- Result similarity: identical values over similar final states. -/
def RSim {α : Type} (r1 r2 : PRes α) : Prop := r1.1 = r2.1 ∧ PSim r1.2 r2.2

theorem psim_refl (p : PState) : PSim p p := ⟨rfl, rfl⟩

theorem next_token_rsim {p1 p2 : PState} (h : PSim p1 p2) :
    RSim (next_token p1) (next_token p2) := by
  obtain ⟨hb, hl⟩ := h
  simp only [next_token, hb]
  cases hbuf : p2.buffer with
  | cons t rest => exact ⟨rfl, ⟨rfl, hl⟩⟩
  | nil =>
    rw [hl]
    cases yield_token p2.lexer with
    | error e => exact ⟨rfl, ⟨hb, hl⟩⟩
    | ok r => exact ⟨rfl, psim_refl _⟩

theorem expect_next_token_rsim {p1 p2 : PState} (h : PSim p1 p2) :
    RSim (expect_next_token p1) (expect_next_token p2) := by
  have hnt := next_token_rsim h
  rcases h1 : next_token p1 with ⟨r1, q1⟩
  rcases h2 : next_token p2 with ⟨r2, q2⟩
  rw [h1, h2] at hnt
  obtain ⟨hv, hq⟩ := hnt
  simp only at hv
  subst hv
  simp only [expect_next_token, pbind, h1, h2]
  cases r1 with
  | error e => exact ⟨rfl, hq⟩
  | ok t? => cases t? with
    | none => exact ⟨rfl, hq⟩
    | some t => exact ⟨rfl, hq⟩

theorem expect_rsim (tok : Token) (ctx : String) {p1 p2 : PState} (h : PSim p1 p2) :
    RSim (expect tok ctx p1) (expect tok ctx p2) := by
  have hnt := expect_next_token_rsim h
  rcases h1 : expect_next_token p1 with ⟨r1, q1⟩
  rcases h2 : expect_next_token p2 with ⟨r2, q2⟩
  rw [h1, h2] at hnt
  obtain ⟨hv, hq⟩ := hnt
  simp only at hv
  subst hv
  simp only [expect, pbind, h1, h2]
  cases r1 with
  | error e => exact ⟨rfl, hq⟩
  | ok t =>
    by_cases htok : tokenEq tok t = true
    · simp only [htok, if_pos]; exact ⟨rfl, hq⟩
    · simp only [htok]; exact ⟨rfl, hq⟩

theorem restore_psim (t : Token) {p1 p2 : PState} (h : PSim p1 p2) :
    PSim ⟨p1.lexer, t :: p1.buffer⟩ ⟨p2.lexer, t :: p2.buffer⟩ := by
  obtain ⟨hb, hl⟩ := h
  exact ⟨by rw [hb], hl⟩

/-- The simulation statement for every parser entry point at a given
fuel: similar input states produce identical values and similar final
states. -/
def SimAll (fuel : Nat) : Prop :=
  (∀ p1 p2, PSim p1 p2 → RSim (parse_all fuel p1) (parse_all fuel p2)) ∧
  (∀ acc p1 p2, PSim p1 p2 → RSim (parse_all_loop fuel acc p1) (parse_all_loop fuel acc p2)) ∧
  (∀ p1 p2, PSim p1 p2 → RSim (next_node fuel p1) (next_node fuel p2)) ∧
  (∀ p1 p2, PSim p1 p2 → RSim (parse_template fuel p1) (parse_template fuel p2)) ∧
  (∀ p1 p2, PSim p1 p2 → RSim (parse_if fuel p1) (parse_if fuel p2)) ∧
  (∀ c acc p1 p2, PSim p1 p2 → RSim (parse_if_loop fuel c acc p1) (parse_if_loop fuel c acc p2)) ∧
  (∀ p1 p2, PSim p1 p2 → RSim (parse_else fuel p1) (parse_else fuel p2)) ∧
  (∀ acc p1 p2, PSim p1 p2 → RSim (parse_else_loop fuel acc p1) (parse_else_loop fuel acc p2)) ∧
  (∀ p1 p2, PSim p1 p2 → RSim (parse_for fuel p1) (parse_for fuel p2)) ∧
  (∀ id it sep p1 p2, PSim p1 p2 →
    RSim (parse_for_tail fuel id it sep p1) (parse_for_tail fuel id it sep p2)) ∧
  (∀ id it sep acc p1 p2, PSim p1 p2 →
    RSim (parse_for_loop fuel id it sep acc p1) (parse_for_loop fuel id it sep acc p2)) ∧
  (∀ p1 p2, PSim p1 p2 → RSim (parse_expr fuel p1) (parse_expr fuel p2)) ∧
  (∀ p1 p2, PSim p1 p2 → RSim (parse_or fuel p1) (parse_or fuel p2)) ∧
  (∀ lhs p1 p2, PSim p1 p2 → RSim (parse_or_loop fuel lhs p1) (parse_or_loop fuel lhs p2)) ∧
  (∀ p1 p2, PSim p1 p2 → RSim (parse_and fuel p1) (parse_and fuel p2)) ∧
  (∀ lhs p1 p2, PSim p1 p2 → RSim (parse_and_loop fuel lhs p1) (parse_and_loop fuel lhs p2)) ∧
  (∀ p1 p2, PSim p1 p2 → RSim (parse_comparisons fuel p1) (parse_comparisons fuel p2)) ∧
  (∀ lhs p1 p2, PSim p1 p2 →
    RSim (parse_comparisons_loop fuel lhs p1) (parse_comparisons_loop fuel lhs p2)) ∧
  (∀ p1 p2, PSim p1 p2 → RSim (parse_polynomial fuel p1) (parse_polynomial fuel p2)) ∧
  (∀ lhs p1 p2, PSim p1 p2 →
    RSim (parse_polynomial_loop fuel lhs p1) (parse_polynomial_loop fuel lhs p2)) ∧
  (∀ p1 p2, PSim p1 p2 → RSim (parse_term fuel p1) (parse_term fuel p2)) ∧
  (∀ lhs p1 p2, PSim p1 p2 → RSim (parse_term_loop fuel lhs p1) (parse_term_loop fuel lhs p2)) ∧
  (∀ p1 p2, PSim p1 p2 → RSim (parse_factor fuel p1) (parse_factor fuel p2)) ∧
  (∀ id args p1 p2, PSim p1 p2 →
    RSim (parse_fn_args fuel id args p1) (parse_fn_args fuel id args p2)) ∧
  (∀ items p1 p2, PSim p1 p2 →
    RSim (parse_array_items fuel items p1) (parse_array_items fuel items p2))

theorem simAll_zero : SimAll 0 :=
  ⟨fun _ _ hp => ⟨rfl, hp⟩, fun _ _ _ hp => ⟨rfl, hp⟩, fun _ _ hp => ⟨rfl, hp⟩,
   fun _ _ hp => ⟨rfl, hp⟩, fun _ _ hp => ⟨rfl, hp⟩, fun _ _ _ _ hp => ⟨rfl, hp⟩,
   fun _ _ hp => ⟨rfl, hp⟩, fun _ _ _ hp => ⟨rfl, hp⟩, fun _ _ hp => ⟨rfl, hp⟩,
   fun _ _ _ _ _ hp => ⟨rfl, hp⟩, fun _ _ _ _ _ _ hp => ⟨rfl, hp⟩,
   fun _ _ hp => ⟨rfl, hp⟩, fun _ _ hp => ⟨rfl, hp⟩, fun _ _ _ hp => ⟨rfl, hp⟩,
   fun _ _ hp => ⟨rfl, hp⟩, fun _ _ _ hp => ⟨rfl, hp⟩, fun _ _ hp => ⟨rfl, hp⟩,
   fun _ _ _ hp => ⟨rfl, hp⟩, fun _ _ hp => ⟨rfl, hp⟩, fun _ _ _ hp => ⟨rfl, hp⟩,
   fun _ _ hp => ⟨rfl, hp⟩, fun _ _ _ hp => ⟨rfl, hp⟩, fun _ _ hp => ⟨rfl, hp⟩,
   fun _ _ _ _ hp => ⟨rfl, hp⟩, fun _ _ _ hp => ⟨rfl, hp⟩⟩

theorem template_tail_rsim (fuel : Nat)
    (ihE : ∀ p1 p2, PSim p1 p2 → RSim (parse_expr fuel p1) (parse_expr fuel p2))
    (tok : Token) {q1 q2 : PState} (hq : PSim q1 q2) :
    RSim
      (match parse_expr fuel ⟨q1.lexer, tok :: q1.buffer⟩ with
       | (.ok n, ps3) =>
         (match expect .templateClose ctxTemplate ps3 with
          | (.ok _, ps4) => (.ok n, ps4)
          | (.error e, ps4) => (.error e, ps4))
       | (.error e, ps3) => (.error e, ps3))
      (match parse_expr fuel ⟨q2.lexer, tok :: q2.buffer⟩ with
       | (.ok n, ps3) =>
         (match expect .templateClose ctxTemplate ps3 with
          | (.ok _, ps4) => (.ok n, ps4)
          | (.error e, ps4) => (.error e, ps4))
       | (.error e, ps3) => (.error e, ps3)) := by
  have hh := ihE ⟨q1.lexer, tok :: q1.buffer⟩ ⟨q2.lexer, tok :: q2.buffer⟩ (restore_psim tok hq)
  revert hh
  rcases parse_expr fuel ⟨q1.lexer, tok :: q1.buffer⟩ with ⟨r1, s1⟩
  rcases parse_expr fuel ⟨q2.lexer, tok :: q2.buffer⟩ with ⟨r2, s2⟩
  intro hh
  have hv : r1 = r2 := hh.1
  have hs : PSim s1 s2 := hh.2
  subst hv
  cases r1 with
  | error e => exact ⟨rfl, hs⟩
  | ok n =>
    dsimp only
    have hh2 := expect_rsim .templateClose ctxTemplate hs
    revert hh2
    rcases expect .templateClose ctxTemplate s1 with ⟨r3, s3⟩
    rcases expect .templateClose ctxTemplate s2 with ⟨r4, s4⟩
    intro hh2
    have hv2 : r3 = r4 := hh2.1
    have hs2 : PSim s3 s4 := hh2.2
    subst hv2
    cases r3 with
    | error e => exact ⟨rfl, hs2⟩
    | ok u => exact ⟨rfl, hs2⟩


theorem fn_args_tail_rsim (fuel : Nat)
    (ihE : ∀ p1 p2, PSim p1 p2 → RSim (parse_expr fuel p1) (parse_expr fuel p2))
    (ihSelf : ∀ id args p1 p2, PSim p1 p2 →
      RSim (parse_fn_args fuel id args p1) (parse_fn_args fuel id args p2))
    (id : String) (args : List Node) (tok : Token) {q1 q2 : PState} (hq : PSim q1 q2) :
    RSim
      (match parse_expr fuel ⟨q1.lexer, tok :: q1.buffer⟩ with
       | (.error e, ps3) => (.error e, ps3)
       | (.ok arg, ps3) =>
         (match expect_next_token ps3 with
          | (.error e, ps4) => (.error e, ps4)
          | (.ok .closingParen, ps4) => (.ok (.functionCall id (args ++ [arg])), ps4)
          | (.ok .comma, ps4) => parse_fn_args fuel id (args ++ [arg]) ps4
          | (.ok t2, ps4) => (.error (.err (.unexpectedToken t2 ctxFunctionCall)), ps4)))
      (match parse_expr fuel ⟨q2.lexer, tok :: q2.buffer⟩ with
       | (.error e, ps3) => (.error e, ps3)
       | (.ok arg, ps3) =>
         (match expect_next_token ps3 with
          | (.error e, ps4) => (.error e, ps4)
          | (.ok .closingParen, ps4) => (.ok (.functionCall id (args ++ [arg])), ps4)
          | (.ok .comma, ps4) => parse_fn_args fuel id (args ++ [arg]) ps4
          | (.ok t2, ps4) => (.error (.err (.unexpectedToken t2 ctxFunctionCall)), ps4))) := by
  have hh := ihE ⟨q1.lexer, tok :: q1.buffer⟩ ⟨q2.lexer, tok :: q2.buffer⟩ (restore_psim tok hq)
  revert hh
  rcases parse_expr fuel ⟨q1.lexer, tok :: q1.buffer⟩ with ⟨r1, s1⟩
  rcases parse_expr fuel ⟨q2.lexer, tok :: q2.buffer⟩ with ⟨r2, s2⟩
  intro hh
  have hv : r1 = r2 := hh.1
  have hs : PSim s1 s2 := hh.2
  subst hv
  cases r1 with
  | error e => exact ⟨rfl, hs⟩
  | ok arg =>
    dsimp only
    have hh2 := expect_next_token_rsim hs
    revert hh2
    rcases expect_next_token s1 with ⟨r3, s3⟩
    rcases expect_next_token s2 with ⟨r4, s4⟩
    intro hh2
    have hv2 : r3 = r4 := hh2.1
    have hs2 : PSim s3 s4 := hh2.2
    subst hv2
    cases r3 with
    | error e => exact ⟨rfl, hs2⟩
    | ok t2 =>
      cases t2 <;> first
        | exact ⟨rfl, hs2⟩
        | exact ihSelf id (args ++ [arg]) s3 s4 hs2

theorem array_items_tail_rsim (fuel : Nat)
    (ihE : ∀ p1 p2, PSim p1 p2 → RSim (parse_expr fuel p1) (parse_expr fuel p2))
    (ihSelf : ∀ items p1 p2, PSim p1 p2 →
      RSim (parse_array_items fuel items p1) (parse_array_items fuel items p2))
    (items : List Node) (tok : Token) {q1 q2 : PState} (hq : PSim q1 q2) :
    RSim
      (match parse_expr fuel ⟨q1.lexer, tok :: q1.buffer⟩ with
       | (.error e, ps3) => (.error e, ps3)
       | (.ok item, ps3) =>
         (match expect_next_token ps3 with
          | (.error e, ps4) => (.error e, ps4)
          | (.ok .closingSqBracket, ps4) => (.ok (.array (items ++ [item])), ps4)
          | (.ok .comma, ps4) => parse_array_items fuel (items ++ [item]) ps4
          | (.ok t2, ps4) => (.error (.err (.unexpectedToken t2 ctxArray)), ps4)))
      (match parse_expr fuel ⟨q2.lexer, tok :: q2.buffer⟩ with
       | (.error e, ps3) => (.error e, ps3)
       | (.ok item, ps3) =>
         (match expect_next_token ps3 with
          | (.error e, ps4) => (.error e, ps4)
          | (.ok .closingSqBracket, ps4) => (.ok (.array (items ++ [item])), ps4)
          | (.ok .comma, ps4) => parse_array_items fuel (items ++ [item]) ps4
          | (.ok t2, ps4) => (.error (.err (.unexpectedToken t2 ctxArray)), ps4))) := by
  have hh := ihE ⟨q1.lexer, tok :: q1.buffer⟩ ⟨q2.lexer, tok :: q2.buffer⟩ (restore_psim tok hq)
  revert hh
  rcases parse_expr fuel ⟨q1.lexer, tok :: q1.buffer⟩ with ⟨r1, s1⟩
  rcases parse_expr fuel ⟨q2.lexer, tok :: q2.buffer⟩ with ⟨r2, s2⟩
  intro hh
  have hv : r1 = r2 := hh.1
  have hs : PSim s1 s2 := hh.2
  subst hv
  cases r1 with
  | error e => exact ⟨rfl, hs⟩
  | ok item =>
    dsimp only
    have hh2 := expect_next_token_rsim hs
    revert hh2
    rcases expect_next_token s1 with ⟨r3, s3⟩
    rcases expect_next_token s2 with ⟨r4, s4⟩
    intro hh2
    have hv2 : r3 = r4 := hh2.1
    have hs2 : PSim s3 s4 := hh2.2
    subst hv2
    cases r3 with
    | error e => exact ⟨rfl, hs2⟩
    | ok t2 =>
      cases t2 <;> first
        | exact ⟨rfl, hs2⟩
        | exact ihSelf (items ++ [item]) s3 s4 hs2

theorem simAll_succ (fuel : Nat) (ih : SimAll fuel) : SimAll (fuel + 1) := by
  obtain ⟨ihA, ihAL, ihNN, ihPT, ihIf, ihIfL, ihEl, ihElL, ihFor, ihForT, ihForL, ihE,
    ihOr, ihOrL, ihAnd, ihAndL, ihCmp, ihCmpL, ihPoly, ihPolyL, ihTerm, ihTermL,
    ihFac, ihFnA, ihArrI⟩ := ih
  refine ⟨?_, ?_, ?_, ?_, ?_, ?_, ?_, ?_, ?_, ?_, ?_, ?_, ?_, ?_, ?_, ?_, ?_, ?_, ?_,
    ?_, ?_, ?_, ?_, ?_, ?_⟩
  · -- parse_all
    intro p1 p2 hp
    exact ihAL [] p1 p2 hp
  · -- parse_all_loop
    intro acc p1 p2 hp
    rcases h1 : next_node fuel p1 with ⟨r1, q1⟩
    rcases h2 : next_node fuel p2 with ⟨r2, q2⟩
    have hh := ihNN p1 p2 hp
    rw [h1, h2] at hh
    have hv : r1 = r2 := hh.1
    have hq : PSim q1 q2 := hh.2
    subst hv
    simp only [parse_all_loop, h1, h2]
    cases r1 with
    | error e => exact ⟨rfl, hq⟩
    | ok n? =>
      cases n? with
      | none => exact ⟨rfl, hq⟩
      | some n => exact ihAL (acc ++ [n]) q1 q2 hq
  · -- next_node
    intro p1 p2 hp
    rcases h1 : next_token p1 with ⟨r1, q1⟩
    rcases h2 : next_token p2 with ⟨r2, q2⟩
    have hh := next_token_rsim hp
    rw [h1, h2] at hh
    have hv : r1 = r2 := hh.1
    have hq : PSim q1 q2 := hh.2
    subst hv
    simp only [next_node, h1, h2]
    cases r1 with
    | error e => exact ⟨rfl, hq⟩
    | ok t? =>
      cases t? with
      | none => exact ⟨rfl, hq⟩
      | some t =>
        cases t <;> try exact ⟨rfl, hq⟩
        case templateOpen =>
          rcases h3 : parse_template fuel q1 with ⟨r3, q3⟩
          rcases h4 : parse_template fuel q2 with ⟨r4, q4⟩
          have hh2 := ihPT q1 q2 hq
          rw [h3, h4] at hh2
          have hv2 : r3 = r4 := hh2.1
          have hq2 : PSim q3 q4 := hh2.2
          subst hv2
          simp only [h3, h4]
          cases r3 with
          | error e => exact ⟨rfl, hq2⟩
          | ok n => exact ⟨rfl, hq2⟩
  · -- parse_template
    intro p1 p2 hp
    rcases h1 : expect_next_token p1 with ⟨r1, q1⟩
    rcases h2 : expect_next_token p2 with ⟨r2, q2⟩
    have hh := expect_next_token_rsim hp
    rw [h1, h2] at hh
    have hv : r1 = r2 := hh.1
    have hq : PSim q1 q2 := hh.2
    subst hv
    simp only [parse_template, h1, h2]
    cases r1 with
    | error e => exact ⟨rfl, hq⟩
    | ok t =>
      cases t <;> try exact template_tail_rsim fuel ihE _ hq
      case keyword k =>
        cases k <;> try exact ⟨rfl, hq⟩
        case kIf =>
          rcases h3 : parse_if fuel q1 with ⟨r3, q3⟩
          rcases h4 : parse_if fuel q2 with ⟨r4, q4⟩
          have hh2 := ihIf q1 q2 hq
          rw [h3, h4] at hh2
          have hv2 : r3 = r4 := hh2.1
          have hq2 : PSim q3 q4 := hh2.2
          subst hv2
          simp only [h3, h4]
          cases r3 with
          | error e => exact ⟨rfl, hq2⟩
          | ok n =>
            rcases h5 : expect .templateClose ctxTemplate q3 with ⟨r5, q5⟩
            rcases h6 : expect .templateClose ctxTemplate q4 with ⟨r6, q6⟩
            have hh3 := expect_rsim .templateClose ctxTemplate hq2
            rw [h5, h6] at hh3
            have hv3 : r5 = r6 := hh3.1
            have hq3 : PSim q5 q6 := hh3.2
            subst hv3
            simp only [h5, h6]
            cases r5 with
            | error e => exact ⟨rfl, hq3⟩
            | ok u => exact ⟨rfl, hq3⟩
        case kFor =>
          rcases h3 : parse_for fuel q1 with ⟨r3, q3⟩
          rcases h4 : parse_for fuel q2 with ⟨r4, q4⟩
          have hh2 := ihFor q1 q2 hq
          rw [h3, h4] at hh2
          have hv2 : r3 = r4 := hh2.1
          have hq2 : PSim q3 q4 := hh2.2
          subst hv2
          simp only [h3, h4]
          cases r3 with
          | error e => exact ⟨rfl, hq2⟩
          | ok n =>
            rcases h5 : expect .templateClose ctxTemplate q3 with ⟨r5, q5⟩
            rcases h6 : expect .templateClose ctxTemplate q4 with ⟨r6, q6⟩
            have hh3 := expect_rsim .templateClose ctxTemplate hq2
            rw [h5, h6] at hh3
            have hv3 : r5 = r6 := hh3.1
            have hq3 : PSim q5 q6 := hh3.2
            subst hv3
            simp only [h5, h6]
            cases r5 with
            | error e => exact ⟨rfl, hq3⟩
            | ok u => exact ⟨rfl, hq3⟩
      case operator op =>
        cases op <;> try exact template_tail_rsim fuel ihE _ hq
        case divide => exact ⟨rfl, hq⟩
  · -- parse_if
    intro p1 p2 hp
    rcases h1 : parse_expr fuel p1 with ⟨r1, q1⟩
    rcases h2 : parse_expr fuel p2 with ⟨r2, q2⟩
    have hh := ihE p1 p2 hp
    rw [h1, h2] at hh
    have hv : r1 = r2 := hh.1
    have hq : PSim q1 q2 := hh.2
    subst hv
    simp only [parse_if, h1, h2]
    cases r1 with
    | error e => exact ⟨rfl, hq⟩
    | ok condition =>
      rcases h3 : expect .templateClose ctxTemplateIf q1 with ⟨r3, q3⟩
      rcases h4 : expect .templateClose ctxTemplateIf q2 with ⟨r4, q4⟩
      have hh2 := expect_rsim .templateClose ctxTemplateIf hq
      rw [h3, h4] at hh2
      have hv2 : r3 = r4 := hh2.1
      have hq2 : PSim q3 q4 := hh2.2
      subst hv2
      simp only [h3, h4]
      cases r3 with
      | error e => exact ⟨rfl, hq2⟩
      | ok u => exact ihIfL condition [] q3 q4 hq2
  · -- parse_if_loop
    intro c acc p1 p2 hp
    rcases h1 : next_node fuel p1 with ⟨r1, q1⟩
    rcases h2 : next_node fuel p2 with ⟨r2, q2⟩
    have hh := ihNN p1 p2 hp
    rw [h1, h2] at hh
    have hv : r1 = r2 := hh.1
    have hq : PSim q1 q2 := hh.2
    subst hv
    simp only [parse_if_loop, h1, h2]
    cases r1 with
    | ok n? =>
      cases n? with
      | none => exact ⟨rfl, hq⟩
      | some n => exact ihIfL c (acc ++ [n]) q1 q2 hq
    | error e =>
      cases e <;> try exact ⟨rfl, hq⟩
      case err pe =>
        cases pe <;> try exact ⟨rfl, hq⟩
        case expectedToken t =>
          cases t <;> try exact ⟨rfl, hq⟩
          case keyword k =>
            cases k <;> try exact ⟨rfl, hq⟩
            case kElif =>
              rcases h3 : parse_if fuel q1 with ⟨r3, q3⟩
              rcases h4 : parse_if fuel q2 with ⟨r4, q4⟩
              have hh2 := ihIf q1 q2 hq
              rw [h3, h4] at hh2
              have hv2 : r3 = r4 := hh2.1
              have hq2 : PSim q3 q4 := hh2.2
              subst hv2
              simp only [h3, h4]
              cases r3 with
              | error e => exact ⟨rfl, hq2⟩
              | ok n => exact ⟨rfl, hq2⟩
            case kElse =>
              rcases h3 : parse_else fuel q1 with ⟨r3, q3⟩
              rcases h4 : parse_else fuel q2 with ⟨r4, q4⟩
              have hh2 := ihEl q1 q2 hq
              rw [h3, h4] at hh2
              have hv2 : r3 = r4 := hh2.1
              have hq2 : PSim q3 q4 := hh2.2
              subst hv2
              simp only [h3, h4]
              cases r3 with
              | error e => exact ⟨rfl, hq2⟩
              | ok n => exact ⟨rfl, hq2⟩
          case operator op =>
            cases op <;> try exact ⟨rfl, hq⟩
            case divide =>
              rcases h3 : expect (.keyword .kIf) ctxEndIf q1 with ⟨r3, q3⟩
              rcases h4 : expect (.keyword .kIf) ctxEndIf q2 with ⟨r4, q4⟩
              have hh2 := expect_rsim (.keyword .kIf) ctxEndIf hq
              rw [h3, h4] at hh2
              have hv2 : r3 = r4 := hh2.1
              have hq2 : PSim q3 q4 := hh2.2
              subst hv2
              simp only [h3, h4]
              cases r3 with
              | error e => exact ⟨rfl, hq2⟩
              | ok u => exact ⟨rfl, hq2⟩
  · -- parse_else
    intro p1 p2 hp
    rcases h1 : expect .templateClose ctxTemplateElse p1 with ⟨r1, q1⟩
    rcases h2 : expect .templateClose ctxTemplateElse p2 with ⟨r2, q2⟩
    have hh := expect_rsim .templateClose ctxTemplateElse hp
    rw [h1, h2] at hh
    have hv : r1 = r2 := hh.1
    have hq : PSim q1 q2 := hh.2
    subst hv
    simp only [parse_else, h1, h2]
    cases r1 with
    | error e => exact ⟨rfl, hq⟩
    | ok u => exact ihElL [] q1 q2 hq
  · -- parse_else_loop
    intro acc p1 p2 hp
    rcases h1 : next_node fuel p1 with ⟨r1, q1⟩
    rcases h2 : next_node fuel p2 with ⟨r2, q2⟩
    have hh := ihNN p1 p2 hp
    rw [h1, h2] at hh
    have hv : r1 = r2 := hh.1
    have hq : PSim q1 q2 := hh.2
    subst hv
    simp only [parse_else_loop, h1, h2]
    cases r1 with
    | ok n? =>
      cases n? with
      | none => exact ⟨rfl, hq⟩
      | some n => exact ihElL (acc ++ [n]) q1 q2 hq
    | error e =>
      cases e <;> try exact ⟨rfl, hq⟩
      case err pe =>
        cases pe <;> try exact ⟨rfl, hq⟩
        case expectedToken t =>
          cases t <;> try exact ⟨rfl, hq⟩
          case operator op =>
            cases op <;> try exact ⟨rfl, hq⟩
            case divide =>
              rcases h3 : expect (.keyword .kIf) ctxElseEndIf q1 with ⟨r3, q3⟩
              rcases h4 : expect (.keyword .kIf) ctxElseEndIf q2 with ⟨r4, q4⟩
              have hh2 := expect_rsim (.keyword .kIf) ctxElseEndIf hq
              rw [h3, h4] at hh2
              have hv2 : r3 = r4 := hh2.1
              have hq2 : PSim q3 q4 := hh2.2
              subst hv2
              simp only [h3, h4]
              cases r3 with
              | error e => exact ⟨rfl, hq2⟩
              | ok u => exact ⟨rfl, hq2⟩
  · -- parse_for
    intro p1 p2 hp
    rcases h1 : expect_next_token p1 with ⟨r1, q1⟩
    rcases h2 : expect_next_token p2 with ⟨r2, q2⟩
    have hh := expect_next_token_rsim hp
    rw [h1, h2] at hh
    have hv : r1 = r2 := hh.1
    have hq : PSim q1 q2 := hh.2
    subst hv
    simp only [parse_for, h1, h2]
    cases r1 with
    | error e => exact ⟨rfl, hq⟩
    | ok t =>
      cases t <;> try exact ⟨rfl, hq⟩
      case identifier id =>
        rcases h3 : expect (.keyword .kIn) ctxForIn q1 with ⟨r3, q3⟩
        rcases h4 : expect (.keyword .kIn) ctxForIn q2 with ⟨r4, q4⟩
        have hh2 := expect_rsim (.keyword .kIn) ctxForIn hq
        rw [h3, h4] at hh2
        have hv2 : r3 = r4 := hh2.1
        have hq2 : PSim q3 q4 := hh2.2
        subst hv2
        simp only [h3, h4]
        cases r3 with
        | error e => exact ⟨rfl, hq2⟩
        | ok u =>
          rcases h5 : parse_expr fuel q3 with ⟨r5, q5⟩
          rcases h6 : parse_expr fuel q4 with ⟨r6, q6⟩
          have hh3 := ihE q3 q4 hq2
          rw [h5, h6] at hh3
          have hv3 : r5 = r6 := hh3.1
          have hq3 : PSim q5 q6 := hh3.2
          subst hv3
          simp only [h5, h6]
          cases r5 with
          | error e => exact ⟨rfl, hq3⟩
          | ok iterable =>
            rcases h7 : expect_next_token q5 with ⟨r7, q7⟩
            rcases h8 : expect_next_token q6 with ⟨r8, q8⟩
            have hh4 := expect_next_token_rsim hq3
            rw [h7, h8] at hh4
            have hv4 : r7 = r8 := hh4.1
            have hq4 : PSim q7 q8 := hh4.2
            subst hv4
            simp only [h7, h8]
            cases r7 with
            | error e => exact ⟨rfl, hq4⟩
            | ok tok =>
              dsimp only
              cases htc : tokenEq tok Token.templateClose with
              | true =>
                exact ihForT id iterable none _ _ (restore_psim tok hq4)
              | false =>
                dsimp only [restore]
                rcases h9 : parse_expr fuel ⟨q7.lexer, tok :: q7.buffer⟩ with ⟨r9, s9⟩
                rcases h10 : parse_expr fuel ⟨q8.lexer, tok :: q8.buffer⟩ with ⟨r10, s10⟩
                have hh5 := ihE ⟨q7.lexer, tok :: q7.buffer⟩ ⟨q8.lexer, tok :: q8.buffer⟩
                  (restore_psim tok hq4)
                rw [h9, h10] at hh5
                have hv5 : r9 = r10 := hh5.1
                have hq5 : PSim s9 s10 := hh5.2
                subst hv5
                cases r9 with
                | error e => exact ⟨rfl, hq5⟩
                | ok sep => exact ihForT id iterable (some sep) s9 s10 hq5
  · -- parse_for_tail
    intro id it sep p1 p2 hp
    rcases h1 : expect .templateClose ctxFor p1 with ⟨r1, q1⟩
    rcases h2 : expect .templateClose ctxFor p2 with ⟨r2, q2⟩
    have hh := expect_rsim .templateClose ctxFor hp
    rw [h1, h2] at hh
    have hv : r1 = r2 := hh.1
    have hq : PSim q1 q2 := hh.2
    subst hv
    simp only [parse_for_tail, h1, h2]
    cases r1 with
    | error e => exact ⟨rfl, hq⟩
    | ok u => exact ihForL id it sep [] q1 q2 hq
  · -- parse_for_loop
    intro id it sep acc p1 p2 hp
    rcases h1 : next_node fuel p1 with ⟨r1, q1⟩
    rcases h2 : next_node fuel p2 with ⟨r2, q2⟩
    have hh := ihNN p1 p2 hp
    rw [h1, h2] at hh
    have hv : r1 = r2 := hh.1
    have hq : PSim q1 q2 := hh.2
    subst hv
    simp only [parse_for_loop, h1, h2]
    cases r1 with
    | ok n? =>
      cases n? with
      | none => exact ⟨rfl, hq⟩
      | some n => exact ihForL id it sep (acc ++ [n]) q1 q2 hq
    | error e =>
      cases e <;> try exact ⟨rfl, hq⟩
      case err pe =>
        cases pe <;> try exact ⟨rfl, hq⟩
        case expectedToken t =>
          cases t <;> try exact ⟨rfl, hq⟩
          case operator op =>
            cases op <;> try exact ⟨rfl, hq⟩
            case divide =>
              rcases h3 : expect (.keyword .kFor) ctxEndFor q1 with ⟨r3, q3⟩
              rcases h4 : expect (.keyword .kFor) ctxEndFor q2 with ⟨r4, q4⟩
              have hh2 := expect_rsim (.keyword .kFor) ctxEndFor hq
              rw [h3, h4] at hh2
              have hv2 : r3 = r4 := hh2.1
              have hq2 : PSim q3 q4 := hh2.2
              subst hv2
              simp only [h3, h4]
              cases r3 with
              | error e => exact ⟨rfl, hq2⟩
              | ok u => exact ⟨rfl, hq2⟩
  · -- parse_expr
    intro p1 p2 hp
    exact ihOr p1 p2 hp
  · -- parse_or
    intro p1 p2 hp
    rcases h1 : parse_and fuel p1 with ⟨r1, q1⟩
    rcases h2 : parse_and fuel p2 with ⟨r2, q2⟩
    have hh := ihAnd p1 p2 hp
    rw [h1, h2] at hh
    have hv : r1 = r2 := hh.1
    have hq : PSim q1 q2 := hh.2
    subst hv
    simp only [parse_or, h1, h2]
    cases r1 with
    | error e => exact ⟨rfl, hq⟩
    | ok lhs => exact ihOrL lhs q1 q2 hq
  · -- parse_or_loop
    intro lhs p1 p2 hp
    rcases h1 : next_token p1 with ⟨r1, q1⟩
    rcases h2 : next_token p2 with ⟨r2, q2⟩
    have hh := next_token_rsim hp
    rw [h1, h2] at hh
    have hv : r1 = r2 := hh.1
    have hq : PSim q1 q2 := hh.2
    subst hv
    simp only [parse_or_loop, h1, h2]
    cases r1 with
    | error e => exact ⟨rfl, hq⟩
    | ok t? =>
      cases t? with
      | none => exact ⟨rfl, hq⟩
      | some t =>
        cases t <;> try exact ⟨rfl, restore_psim _ hq⟩
        case operator op =>
          cases op <;> try exact ⟨rfl, restore_psim _ hq⟩
          case or =>
            rcases h3 : parse_and fuel q1 with ⟨r3, q3⟩
            rcases h4 : parse_and fuel q2 with ⟨r4, q4⟩
            have hh2 := ihAnd q1 q2 hq
            rw [h3, h4] at hh2
            have hv2 : r3 = r4 := hh2.1
            have hq2 : PSim q3 q4 := hh2.2
            subst hv2
            simp only [h3, h4]
            cases r3 with
            | error e => exact ⟨rfl, hq2⟩
            | ok rhs => exact ihOrL _ q3 q4 hq2
  · -- parse_and
    intro p1 p2 hp
    rcases h1 : parse_comparisons fuel p1 with ⟨r1, q1⟩
    rcases h2 : parse_comparisons fuel p2 with ⟨r2, q2⟩
    have hh := ihCmp p1 p2 hp
    rw [h1, h2] at hh
    have hv : r1 = r2 := hh.1
    have hq : PSim q1 q2 := hh.2
    subst hv
    simp only [parse_and, h1, h2]
    cases r1 with
    | error e => exact ⟨rfl, hq⟩
    | ok lhs => exact ihAndL lhs q1 q2 hq
  · -- parse_and_loop
    intro lhs p1 p2 hp
    rcases h1 : next_token p1 with ⟨r1, q1⟩
    rcases h2 : next_token p2 with ⟨r2, q2⟩
    have hh := next_token_rsim hp
    rw [h1, h2] at hh
    have hv : r1 = r2 := hh.1
    have hq : PSim q1 q2 := hh.2
    subst hv
    simp only [parse_and_loop, h1, h2]
    cases r1 with
    | error e => exact ⟨rfl, hq⟩
    | ok t? =>
      cases t? with
      | none => exact ⟨rfl, hq⟩
      | some t =>
        cases t <;> try exact ⟨rfl, restore_psim _ hq⟩
        case operator op =>
          cases op <;> try exact ⟨rfl, restore_psim _ hq⟩
          case and =>
            rcases h3 : parse_comparisons fuel q1 with ⟨r3, q3⟩
            rcases h4 : parse_comparisons fuel q2 with ⟨r4, q4⟩
            have hh2 := ihCmp q1 q2 hq
            rw [h3, h4] at hh2
            have hv2 : r3 = r4 := hh2.1
            have hq2 : PSim q3 q4 := hh2.2
            subst hv2
            simp only [h3, h4]
            cases r3 with
            | error e => exact ⟨rfl, hq2⟩
            | ok rhs => exact ihAndL _ q3 q4 hq2
  · -- parse_comparisons
    intro p1 p2 hp
    rcases h1 : parse_polynomial fuel p1 with ⟨r1, q1⟩
    rcases h2 : parse_polynomial fuel p2 with ⟨r2, q2⟩
    have hh := ihPoly p1 p2 hp
    rw [h1, h2] at hh
    have hv : r1 = r2 := hh.1
    have hq : PSim q1 q2 := hh.2
    subst hv
    simp only [parse_comparisons, h1, h2]
    cases r1 with
    | error e => exact ⟨rfl, hq⟩
    | ok lhs => exact ihCmpL lhs q1 q2 hq
  · -- parse_comparisons_loop
    intro lhs p1 p2 hp
    rcases h1 : next_token p1 with ⟨r1, q1⟩
    rcases h2 : next_token p2 with ⟨r2, q2⟩
    have hh := next_token_rsim hp
    rw [h1, h2] at hh
    have hv : r1 = r2 := hh.1
    have hq : PSim q1 q2 := hh.2
    subst hv
    simp only [parse_comparisons_loop, h1, h2]
    cases r1 with
    | error e => exact ⟨rfl, hq⟩
    | ok t? =>
      cases t? with
      | none => exact ⟨rfl, hq⟩
      | some t =>
        cases t <;> try exact ⟨rfl, restore_psim _ hq⟩
        case operator op =>
          cases op <;> try exact ⟨rfl, restore_psim _ hq⟩
          case isEqualTo =>
            rcases h3 : parse_polynomial fuel q1 with ⟨r3, q3⟩
            rcases h4 : parse_polynomial fuel q2 with ⟨r4, q4⟩
            have hh2 := ihPoly q1 q2 hq
            rw [h3, h4] at hh2
            have hv2 : r3 = r4 := hh2.1
            have hq2 : PSim q3 q4 := hh2.2
            subst hv2
            simp only [h3, h4]
            cases r3 with
            | error e => exact ⟨rfl, hq2⟩
            | ok rhs => exact ihCmpL _ q3 q4 hq2
          case isNotEqualTo =>
            rcases h3 : parse_polynomial fuel q1 with ⟨r3, q3⟩
            rcases h4 : parse_polynomial fuel q2 with ⟨r4, q4⟩
            have hh2 := ihPoly q1 q2 hq
            rw [h3, h4] at hh2
            have hv2 : r3 = r4 := hh2.1
            have hq2 : PSim q3 q4 := hh2.2
            subst hv2
            simp only [h3, h4]
            cases r3 with
            | error e => exact ⟨rfl, hq2⟩
            | ok rhs => exact ihCmpL _ q3 q4 hq2
  · -- parse_polynomial
    intro p1 p2 hp
    rcases h1 : parse_term fuel p1 with ⟨r1, q1⟩
    rcases h2 : parse_term fuel p2 with ⟨r2, q2⟩
    have hh := ihTerm p1 p2 hp
    rw [h1, h2] at hh
    have hv : r1 = r2 := hh.1
    have hq : PSim q1 q2 := hh.2
    subst hv
    simp only [parse_polynomial, h1, h2]
    cases r1 with
    | error e => exact ⟨rfl, hq⟩
    | ok lhs => exact ihPolyL lhs q1 q2 hq
  · -- parse_polynomial_loop
    intro lhs p1 p2 hp
    rcases h1 : next_token p1 with ⟨r1, q1⟩
    rcases h2 : next_token p2 with ⟨r2, q2⟩
    have hh := next_token_rsim hp
    rw [h1, h2] at hh
    have hv : r1 = r2 := hh.1
    have hq : PSim q1 q2 := hh.2
    subst hv
    simp only [parse_polynomial_loop, h1, h2]
    cases r1 with
    | error e => exact ⟨rfl, hq⟩
    | ok t? =>
      cases t? with
      | none => exact ⟨rfl, hq⟩
      | some t =>
        cases t <;> try exact ⟨rfl, restore_psim _ hq⟩
        case operator op =>
          cases op <;> try exact ⟨rfl, restore_psim _ hq⟩
          case add =>
            rcases h3 : parse_term fuel q1 with ⟨r3, q3⟩
            rcases h4 : parse_term fuel q2 with ⟨r4, q4⟩
            have hh2 := ihTerm q1 q2 hq
            rw [h3, h4] at hh2
            have hv2 : r3 = r4 := hh2.1
            have hq2 : PSim q3 q4 := hh2.2
            subst hv2
            simp only [h3, h4]
            cases r3 with
            | error e => exact ⟨rfl, hq2⟩
            | ok rhs => exact ihPolyL _ q3 q4 hq2
          case subtract =>
            rcases h3 : parse_term fuel q1 with ⟨r3, q3⟩
            rcases h4 : parse_term fuel q2 with ⟨r4, q4⟩
            have hh2 := ihTerm q1 q2 hq
            rw [h3, h4] at hh2
            have hv2 : r3 = r4 := hh2.1
            have hq2 : PSim q3 q4 := hh2.2
            subst hv2
            simp only [h3, h4]
            cases r3 with
            | error e => exact ⟨rfl, hq2⟩
            | ok rhs => exact ihPolyL _ q3 q4 hq2
  · -- parse_term
    intro p1 p2 hp
    rcases h1 : parse_factor fuel p1 with ⟨r1, q1⟩
    rcases h2 : parse_factor fuel p2 with ⟨r2, q2⟩
    have hh := ihFac p1 p2 hp
    rw [h1, h2] at hh
    have hv : r1 = r2 := hh.1
    have hq : PSim q1 q2 := hh.2
    subst hv
    simp only [parse_term, h1, h2]
    cases r1 with
    | error e => exact ⟨rfl, hq⟩
    | ok lhs => exact ihTermL lhs q1 q2 hq
  · -- parse_term_loop
    intro lhs p1 p2 hp
    rcases h1 : next_token p1 with ⟨r1, q1⟩
    rcases h2 : next_token p2 with ⟨r2, q2⟩
    have hh := next_token_rsim hp
    rw [h1, h2] at hh
    have hv : r1 = r2 := hh.1
    have hq : PSim q1 q2 := hh.2
    subst hv
    simp only [parse_term_loop, h1, h2]
    cases r1 with
    | error e => exact ⟨rfl, hq⟩
    | ok t? =>
      cases t? with
      | none => exact ⟨rfl, hq⟩
      | some t =>
        cases t <;> try exact ⟨rfl, restore_psim _ hq⟩
        case operator op =>
          cases op <;> try exact ⟨rfl, restore_psim _ hq⟩
          case multiply =>
            rcases h3 : parse_factor fuel q1 with ⟨r3, q3⟩
            rcases h4 : parse_factor fuel q2 with ⟨r4, q4⟩
            have hh2 := ihFac q1 q2 hq
            rw [h3, h4] at hh2
            have hv2 : r3 = r4 := hh2.1
            have hq2 : PSim q3 q4 := hh2.2
            subst hv2
            simp only [h3, h4]
            cases r3 with
            | error e => exact ⟨rfl, hq2⟩
            | ok rhs => exact ihTermL _ q3 q4 hq2
          case divide =>
            rcases h3 : parse_factor fuel q1 with ⟨r3, q3⟩
            rcases h4 : parse_factor fuel q2 with ⟨r4, q4⟩
            have hh2 := ihFac q1 q2 hq
            rw [h3, h4] at hh2
            have hv2 : r3 = r4 := hh2.1
            have hq2 : PSim q3 q4 := hh2.2
            subst hv2
            simp only [h3, h4]
            cases r3 with
            | error e => exact ⟨rfl, hq2⟩
            | ok rhs => exact ihTermL _ q3 q4 hq2
  · -- parse_factor
    intro p1 p2 hp
    rcases h1 : expect_next_token p1 with ⟨r1, q1⟩
    rcases h2 : expect_next_token p2 with ⟨r2, q2⟩
    have hh := expect_next_token_rsim hp
    rw [h1, h2] at hh
    have hv : r1 = r2 := hh.1
    have hq : PSim q1 q2 := hh.2
    subst hv
    simp only [parse_factor, h1, h2]
    cases r1 with
    | error e => exact ⟨rfl, hq⟩
    | ok t =>
      cases t <;> try exact ⟨rfl, hq⟩
      case openingSqBracket => exact ihArrI [] q1 q2 hq
      case openingParen =>
        rcases h3 : parse_expr fuel q1 with ⟨r3, q3⟩
        rcases h4 : parse_expr fuel q2 with ⟨r4, q4⟩
        have hh2 := ihE q1 q2 hq
        rw [h3, h4] at hh2
        have hv2 : r3 = r4 := hh2.1
        have hq2 : PSim q3 q4 := hh2.2
        subst hv2
        simp only [h3, h4]
        cases r3 with
        | error e => exact ⟨rfl, hq2⟩
        | ok n =>
          rcases h5 : expect .closingParen ctxParentheses q3 with ⟨r5, q5⟩
          rcases h6 : expect .closingParen ctxParentheses q4 with ⟨r6, q6⟩
          have hh3 := expect_rsim .closingParen ctxParentheses hq2
          rw [h5, h6] at hh3
          have hv3 : r5 = r6 := hh3.1
          have hq3 : PSim q5 q6 := hh3.2
          subst hv3
          simp only [h5, h6]
          cases r5 with
          | error e => exact ⟨rfl, hq3⟩
          | ok u => exact ⟨rfl, hq3⟩
      case identifier id =>
        rcases h3 : expect_next_token q1 with ⟨r3, q3⟩
        rcases h4 : expect_next_token q2 with ⟨r4, q4⟩
        have hh2 := expect_next_token_rsim hq
        rw [h3, h4] at hh2
        have hv2 : r3 = r4 := hh2.1
        have hq2 : PSim q3 q4 := hh2.2
        subst hv2
        simp only [h3, h4]
        cases r3 with
        | error e => exact ⟨rfl, hq2⟩
        | ok t2 =>
          cases t2 <;> try exact ⟨rfl, restore_psim _ hq2⟩
          case openingParen => exact ihFnA id [] q3 q4 hq2
      case exclamation =>
        rcases h3 : parse_factor fuel q1 with ⟨r3, q3⟩
        rcases h4 : parse_factor fuel q2 with ⟨r4, q4⟩
        have hh2 := ihFac q1 q2 hq
        rw [h3, h4] at hh2
        have hv2 : r3 = r4 := hh2.1
        have hq2 : PSim q3 q4 := hh2.2
        subst hv2
        simp only [h3, h4]
        cases r3 with
        | error e => exact ⟨rfl, hq2⟩
        | ok n => exact ⟨rfl, hq2⟩
      case operator op =>
        cases op <;> try exact ⟨rfl, hq⟩
        case subtract =>
          rcases h3 : parse_factor fuel q1 with ⟨r3, q3⟩
          rcases h4 : parse_factor fuel q2 with ⟨r4, q4⟩
          have hh2 := ihFac q1 q2 hq
          rw [h3, h4] at hh2
          have hv2 : r3 = r4 := hh2.1
          have hq2 : PSim q3 q4 := hh2.2
          subst hv2
          simp only [h3, h4]
          cases r3 with
          | error e => exact ⟨rfl, hq2⟩
          | ok n => exact ⟨rfl, hq2⟩
  · -- parse_fn_args
    intro id args p1 p2 hp
    rcases h1 : expect_next_token p1 with ⟨r1, q1⟩
    rcases h2 : expect_next_token p2 with ⟨r2, q2⟩
    have hh := expect_next_token_rsim hp
    rw [h1, h2] at hh
    have hv : r1 = r2 := hh.1
    have hq : PSim q1 q2 := hh.2
    subst hv
    simp only [parse_fn_args, h1, h2]
    cases r1 with
    | error e => exact ⟨rfl, hq⟩
    | ok t =>
      cases t <;> first
        | exact ⟨rfl, hq⟩
        | exact fn_args_tail_rsim fuel ihE ihFnA id args _ hq
  · -- parse_array_items
    intro items p1 p2 hp
    rcases h1 : expect_next_token p1 with ⟨r1, q1⟩
    rcases h2 : expect_next_token p2 with ⟨r2, q2⟩
    have hh := expect_next_token_rsim hp
    rw [h1, h2] at hh
    have hv : r1 = r2 := hh.1
    have hq : PSim q1 q2 := hh.2
    subst hv
    simp only [parse_array_items, h1, h2]
    cases r1 with
    | error e => exact ⟨rfl, hq⟩
    | ok t =>
      cases t <;> first
        | exact ⟨rfl, hq⟩
        | exact array_items_tail_rsim fuel ihE ihArrI items _ hq

/-- Every fuel level satisfies the full parser simulation. -/
theorem sim_all : ∀ fuel, SimAll fuel := by
  intro fuel
  induction fuel with
  | zero => exact simAll_zero
  | succ f ihf => exact simAll_succ f ihf

/-- A template whose inside-template whitespace is a mix of newlines,
tabs and spaces (and none after the opening braces). -/
def srcWs1 : String := "a*b = \x7b\x7ba*b\n\n\t\t  \x7d\x7d"

/-- The same template written with single spaces inside the braces. -/
def srcWs2 : String := "a*b = \x7b\x7b a*b \x7d\x7d"

/-- C8: whitespace between tokens inside a template section is inert.
Formally: (1) at an inside-template token boundary (`inTemplate = true`,
nothing pending) the lexed token stream is unchanged under replacing one
whitespace run by any other, at every fuel; (2) under the same
replacement the parser's result value is unchanged, for every pushback
buffer and fuel (by the `sim_all` simulation); (3)–(5) end to end, the
sources `srcWs1` and `srcWs2`, which differ only in whitespace inside
`\x7b\x7b ... \x7d\x7d`, lex to the same token sequence and render
identically (to `"a*b = 131.2"` under the test variables). -/
theorem c8_whitespace_between_tokens :
    (∀ fuel ws1 ws2 rest,
      (∀ c ∈ ws1, rustIsWhitespace c = true) →
      (∀ c ∈ ws2, rustIsWhitespace c = true) →
      lex_all_f fuel ⟨ws1 ++ rest, [], true⟩ = lex_all_f fuel ⟨ws2 ++ rest, [], true⟩) ∧
    (∀ fuel buf ws1 ws2 rest,
      (∀ c ∈ ws1, rustIsWhitespace c = true) →
      (∀ c ∈ ws2, rustIsWhitespace c = true) →
      (parse_all fuel ⟨⟨ws1 ++ rest, [], true⟩, buf⟩).1 =
      (parse_all fuel ⟨⟨ws2 ++ rest, [], true⟩, buf⟩).1) ∧
    lex_all srcWs1 = lex_all srcWs2 ∧
    render_template srcWs1 testVars emptyFuncs = render_template srcWs2 testVars emptyFuncs ∧
    render_template srcWs2 testVars emptyFuncs = .ok "a*b = 131.2" := by
  refine ⟨?_, ?_, ?_, ?_, ?_⟩
  · intro fuel ws1 ws2 rest h1 h2
    cases fuel with
    | zero => rfl
    | succ f => simp only [lex_all_f, ws_run_inert ws1 rest h1, ws_run_inert ws2 rest h2]
  · intro fuel buf ws1 ws2 rest h1 h2
    have hp : PSim ⟨⟨ws1 ++ rest, [], true⟩, buf⟩ ⟨⟨ws2 ++ rest, [], true⟩, buf⟩ :=
      ⟨rfl, (ws_run_inert ws1 rest h1).trans (ws_run_inert ws2 rest h2).symm⟩
    exact ((sim_all fuel).1 _ _ hp).1
  · with_unfolding_all rfl
  · with_unfolding_all rfl
  · with_unfolding_all rfl

/-- Concrete instance of the C8 lexer conjunct: a single space and a
tab-newline pair in front of the same remainder lex identically. -/
theorem c8_whitespace_between_tokens_witness :
    (∀ c ∈ [' '], rustIsWhitespace c = true) ∧
    (∀ c ∈ ['\t', '\n'], rustIsWhitespace c = true) ∧
    lex_all_f 12 ⟨[' '] ++ ['a'], [], true⟩ = lex_all_f 12 ⟨['\t', '\n'] ++ ['a'], [], true⟩ :=
  ⟨by decide, by decide,
   c8_whitespace_between_tokens.1 12 [' '] ['\t', '\n'] ['a'] (by decide) (by decide)⟩
